import Mathlib

/-!
Tennis court booking system

A shallow embedding of `tennisCouryBookingSystem.cpp` and the properties of its
booking pipeline.

Conventions of the embedding:

* a C++ `int` is a Lean `Int`; every `int` operation that can leave the 32-bit
  range is followed by `wrap32`, the two's-complement reduction performed by the
  usual targets (signed overflow is undefined in the language itself);
* a function that can throw returns `Except Exn _`; a method that can throw and
  also mutates its object returns the result together with the object;
* console output and the calls made on the stateful services are recorded as a
  list of `Event`s.
-/

namespace TennisBooking

/-! ## Machine integers -/

/-- Largest value of a 32-bit `int`. -/
def INT_MAX : Int := 2147483647

/-- Smallest value of a 32-bit `int`. -/
def INT_MIN : Int := -2147483648

/-- Two's-complement reduction of an integer to the range of a 32-bit `int`. -/
def wrap32 (z : Int) : Int := (z + 2147483648) % 4294967296 - 2147483648

/-! ## Exceptions -/

/-- The standard exception classes thrown by the program. -/
inductive ExnKind
  | invalid_argument
  | runtime_error
  | out_of_range
  deriving DecidableEq, Repr

/-- A thrown exception: its class and its `what()` message. -/
structure Exn where
  kind : ExnKind
  what : String
  deriving DecidableEq, Repr

deriving instance DecidableEq for Except

/-! ## Catalog: courts and rental items -/

/-- The three concrete subclasses of `Court`. -/
inductive Court
  | GrassCourt
  | ClayCourt
  | HardCourt
  deriving DecidableEq, Repr

/-- Source function `Court::getPrice`, as overridden by each subclass. -/
def Court.getPrice : Court → Int
  | .GrassCourt => 100
  | .ClayCourt => 200
  | .HardCourt => 300

/-- The string by which `CourtFactory` recognises each court. -/
def Court.name : Court → String
  | .GrassCourt => "Grass"
  | .ClayCourt => "Clay"
  | .HardCourt => "Hard"

/-- Source function `CourtFactory::createCourt`. -/
def CourtFactory.createCourt (type : String) : Except Exn Court :=
  if type = "Grass" then .ok .GrassCourt
  else if type = "Clay" then .ok .ClayCourt
  else if type = "Hard" then .ok .HardCourt
  else .error ⟨.invalid_argument, "Invalid court type"⟩

/-- The three concrete subclasses of `RentalItem`. -/
inductive RentalItem
  | Ballpack
  | Racket
  | Grips
  deriving DecidableEq, Repr

/-- Source function `RentalItem::getPrice`, as overridden by each subclass. -/
def RentalItem.getPrice : RentalItem → Int
  | .Ballpack => 20
  | .Racket => 30
  | .Grips => 40

/-- The string by which `RentalItemFactory` recognises each rental item. -/
def RentalItem.name : RentalItem → String
  | .Ballpack => "Ballpack"
  | .Racket => "Racket"
  | .Grips => "Grips"

/-- Source function `RentalItemFactory::createRentalItem`. -/
def RentalItemFactory.createRentalItem (type : String) : Except Exn RentalItem :=
  if type = "Ballpack" then .ok .Ballpack
  else if type = "Racket" then .ok .Racket
  else if type = "Grips" then .ok .Grips
  else .error ⟨.invalid_argument, "Invalid rental item type"⟩

/-! ## Pricing and discounts -/

/-- Source function `PricingStrategy::calculateTotal`: starts from the court price and adds the
price of each item, in order, with `int` additions. -/
def PricingStrategy.calculateTotal (court : Court) (items : List RentalItem) : Int :=
  items.foldl (fun total item => wrap32 (total + item.getPrice)) court.getPrice

/-- The two concrete subclasses of `DiscountStrategy`. -/
inductive DiscountStrategy
  | NoDiscount
  | PercentageDiscount (percentage : Int)
  deriving DecidableEq, Repr

/-- Source function `DiscountStrategy::applyDiscount`: `NoDiscount` returns `total`;
`PercentageDiscount` returns `total - (total * percentage / 100)` computed on
`int`, with `/` truncating toward zero. -/
def DiscountStrategy.applyDiscount : DiscountStrategy → Int → Int
  | .NoDiscount, total => total
  | .PercentageDiscount percentage, total =>
      wrap32 (total - Int.tdiv (wrap32 (total * percentage)) 100)

/-- The exact sum of catalog prices of a court and a list of items. -/
def exactTotal (court : Court) (items : List RentalItem) : Int :=
  court.getPrice + (items.map RentalItem.getPrice).sum

/-! ## Console -/

/-- What the program writes to the console and which calls it makes on its
stateful services, in order. -/
inductive Event
  /-- Source function `Logger::logInfo`. -/
  | logInfo (message : String)
  /-- Source function `Logger::logError`. -/
  | logError (message : String)
  /-- A call of `InventoryService::checkAvailability`. -/
  | checkAvailability (courtType : String)
  /-- A call of `InventoryService::reserveCourt`. -/
  | reserveCourt (courtType : String)
  /-- The line `Total Price after discount: ₹<total>`. -/
  | totalPrice (total : Int)
  /-- A call of `collectPaymentDetails` (prompting and reading). -/
  | collectPaymentDetails (method : String)
  /-- The line `Processing card payment of ₹<amount>` (or `UPI payment`). -/
  | processPayment (method : String) (amount : Int)
  /-- The text `Payment successful for card ending with ` (or `for UPI ID `). -/
  | paymentSuccessful (method : String)
  /-- The text that ends the success line: the card suffix or the UPI id. -/
  | paymentReference (text : String)
  deriving DecidableEq, Repr

/-- The values that the extractions of `collectPaymentDetails` obtain from
standard input. -/
structure ConsoleInput where
  cardNumber : String
  expiryDate : String
  cardHolderName : String
  cvv : String
  upiId : String
  deriving DecidableEq, Repr

/-! ## Payment -/

/-- Library function `std::string::substr(pos)`: throws `std::out_of_range` when `pos` exceeds the
size, otherwise returns the characters from `pos` to the end. -/
def substr (s : String) (pos : Nat) : Except Exn String :=
  if pos > s.length then .error ⟨.out_of_range, "basic_string::substr"⟩
  else .ok (String.mk (s.data.drop pos))

/-- Subtraction of two `size_t` values (unsigned, 64 bits): it wraps around when
the result would be negative. -/
def subSizeT (a b : Nat) : Nat :=
  if b ≤ a then a - b else 18446744073709551616 - (b - a)

/-- The `size_t` value of `s.size() - 4`. -/
def sizeMinus4 (s : String) : Nat := subSizeT s.length 4

/-- The two concrete subclasses of `PaymentProcessor`, with their fields. -/
inductive PaymentProcessor
  | CardPayment (cardNumber expiryDate cardHolderName cvv : String)
  | UPIPayment (upiId : String)
  deriving DecidableEq, Repr

/-- The tag under which `PaymentProcessorFactory` creates each processor. -/
def PaymentProcessor.method : PaymentProcessor → String
  | .CardPayment _ _ _ _ => "Card"
  | .UPIPayment _ => "UPI"

/-- Source function `PaymentProcessor::collectPaymentDetails`: fills the fields from the console. -/
def PaymentProcessor.collectPaymentDetails (input : ConsoleInput) :
    PaymentProcessor → PaymentProcessor × List Event
  | .CardPayment _ _ _ _ =>
      (.CardPayment input.cardNumber input.expiryDate input.cardHolderName input.cvv,
        [.collectPaymentDetails "Card"])
  | .UPIPayment _ => (.UPIPayment input.upiId, [.collectPaymentDetails "UPI"])

/-- Source function `PaymentProcessor::processPayment`. For a card, the second output statement
writes its text and then evaluates `cardNumber.substr(cardNumber.size() - 4)`. -/
def PaymentProcessor.processPayment (amount : Int) :
    PaymentProcessor → Except Exn Unit × List Event
  | .CardPayment cardNumber _ _ _ =>
      match substr cardNumber (sizeMinus4 cardNumber) with
      | .error e => (.error e, [.processPayment "Card" amount, .paymentSuccessful "Card"])
      | .ok suffix =>
          (.ok (), [.processPayment "Card" amount, .paymentSuccessful "Card",
            .paymentReference suffix])
  | .UPIPayment upiId =>
      (.ok (), [.processPayment "UPI" amount, .paymentSuccessful "UPI", .paymentReference upiId])

/-- Source function `PaymentProcessorFactory::createProcessor`. -/
def PaymentProcessorFactory.createProcessor (method : String) : Except Exn PaymentProcessor :=
  if method = "Card" then .ok (.CardPayment "" "" "" "")
  else if method = "UPI" then .ok (.UPIPayment "")
  else .error ⟨.invalid_argument, "Invalid payment method"⟩

/-- Source function `PaymentService::processPayment`. -/
def PaymentService.processPayment (paymentMethod : String) (amount : Int) (input : ConsoleInput) :
    Except Exn Unit × List Event :=
  match PaymentProcessorFactory.createProcessor paymentMethod with
  | .error e => (.error e, [])
  | .ok paymentProcessor =>
      let collected := paymentProcessor.collectPaymentDetails input
      let charged := collected.1.processPayment amount
      (charged.1, collected.2 ++ charged.2)

/-! ## Inventory -/

/-- A `std::map<std::string, int>`: a list of bindings in which the first binding
of a key is the one that counts. -/
abbrev StdMap := List (String × Int)

/-- The value bound to a key, if any. -/
def StdMap.find : StdMap → String → Option Int
  | [], _ => none
  | (k, v) :: rest, key => if k = key then some v else StdMap.find rest key

/-- The keys of the map. -/
def StdMap.keys (m : StdMap) : List String := m.map Prod.fst

/-- Library function `std::map::at`: throws `std::out_of_range` for a key that is not in the map. -/
def StdMap.at (m : StdMap) (key : String) : Except Exn Int :=
  match m.find key with
  | some v => .ok v
  | none => .error ⟨.out_of_range, "map::at"⟩

/-- Library function `std::map::operator[]` followed by a modification of the referenced value:
a key that is not in the map is first inserted with the value `0`. -/
def StdMap.modify : StdMap → String → (Int → Int) → StdMap
  | [], key, f => [(key, f 0)]
  | (k, v) :: rest, key, f =>
      if k = key then (k, f v) :: rest else (k, v) :: StdMap.modify rest key f

/-- The class `CourtInventory`. -/
structure CourtInventory where
  courtAvailability : StdMap
  deriving DecidableEq, Repr

/-- The constructor of `CourtInventory`. -/
def CourtInventory.new : CourtInventory :=
  ⟨((StdMap.modify [] "Grass" (fun _ => 10)).modify "Clay" (fun _ => 5)).modify "Hard"
    (fun _ => 8)⟩

/-- Source function `CourtInventory::isAvailable`. -/
def CourtInventory.isAvailable (inv : CourtInventory) (courtType : String) : Except Exn Bool :=
  match inv.courtAvailability.at courtType with
  | .error e => .error e
  | .ok v => .ok (decide (v > 0))

/-- Source function `CourtInventory::bookCourt`. The decrement is reached only with a positive
value, so that it cannot leave the range of `int`. -/
def CourtInventory.bookCourt (inv : CourtInventory) (courtType : String) :
    Except Exn Unit × CourtInventory :=
  match inv.isAvailable courtType with
  | .error e => (.error e, inv)
  | .ok false => (.error ⟨.runtime_error, "No courts available for type: " ++ courtType⟩, inv)
  | .ok true => (.ok (), ⟨inv.courtAvailability.modify courtType (fun v => v - 1)⟩)

/-- The class `InventoryService`. -/
structure InventoryService where
  inventory : CourtInventory
  deriving DecidableEq, Repr

/-- Source function `InventoryService::checkAvailability`. -/
def InventoryService.checkAvailability (svc : InventoryService) (courtType : String) :
    Except Exn Bool :=
  svc.inventory.isAvailable courtType

/-- Source function `InventoryService::reserveCourt`. -/
def InventoryService.reserveCourt (svc : InventoryService) (courtType : String) :
    Except Exn Unit × InventoryService :=
  let r := svc.inventory.bookCourt courtType
  (r.1, ⟨r.2⟩)

/-! ## Validation -/

/-- Source function `BookingValidator::validateCourtType`. -/
def BookingValidator.validateCourtType (courtType : String) : Except Exn Unit :=
  if courtType ≠ "Grass" ∧ courtType ≠ "Clay" ∧ courtType ≠ "Hard" then
    .error ⟨.invalid_argument, "Invalid court type"⟩
  else .ok ()

/-- Source function `BookingValidator::validatePaymentMethod`. -/
def BookingValidator.validatePaymentMethod (paymentMethod : String) : Except Exn Unit :=
  if paymentMethod ≠ "Card" ∧ paymentMethod ≠ "UPI" then
    .error ⟨.invalid_argument, "Invalid payment method"⟩
  else .ok ()

/-! ## Bookings -/

/-- The class `Booking`. -/
structure Booking where
  court : Court
  rentalItems : List RentalItem
  discountStrategy : DiscountStrategy
  deriving DecidableEq, Repr

/-- The constructor of `Booking` with its default discount argument. -/
def Booking.new (court : Court) : Booking := ⟨court, [], .NoDiscount⟩

/-- Source function `Booking::addRentalItem`. -/
def Booking.addRentalItem (booking : Booking) (item : RentalItem) : Booking :=
  ⟨booking.court, booking.rentalItems ++ [item], booking.discountStrategy⟩

/-- Modelled from the spec: `Booking::applyDiscountStrategy` is called by
`BookingManager::bookCourt` and declared nowhere in the source. The spec has the
orchestrator "apply the configured discount policy (fixed at 10% percentage
discount in the default orchestration)" to the booking it built, so the method
installs the given strategy as the booking's discount strategy. -/
def Booking.applyDiscountStrategy (booking : Booking) (discount : DiscountStrategy) : Booking :=
  ⟨booking.court, booking.rentalItems, discount⟩

/-- Source function `Booking::calculateTotal`. -/
def Booking.calculateTotal (booking : Booking) : Int :=
  booking.discountStrategy.applyDiscount
    (PricingStrategy.calculateTotal booking.court booking.rentalItems)

/-- The loop of `BookingService::createBooking`. -/
def BookingService.addRentalItems (booking : Booking) : List String → Except Exn Booking
  | [] => .ok booking
  | rentalType :: rest =>
      match RentalItemFactory.createRentalItem rentalType with
      | .error e => .error e
      | .ok item => BookingService.addRentalItems (booking.addRentalItem item) rest

/-- Source function `BookingService::createBooking`. -/
def BookingService.createBooking (courtType : String) (rentalTypes : List String) :
    Except Exn Booking :=
  match CourtFactory.createCourt courtType with
  | .error e => .error e
  | .ok court => BookingService.addRentalItems (Booking.new court) rentalTypes

/-! ## Booking manager -/

/-- The class `BookingManager`; its booking and payment services have no state. -/
structure BookingManager where
  inventoryService : InventoryService
  deriving DecidableEq, Repr

/-- A freshly constructed `BookingManager`. -/
def BookingManager.new : BookingManager := ⟨⟨CourtInventory.new⟩⟩

/-- The remaining count the manager's inventory holds for a key. -/
def BookingManager.count (mgr : BookingManager) (courtType : String) : Option Int :=
  mgr.inventoryService.inventory.courtAvailability.find courtType

/-- What a call leaves behind: the value returned or the exception thrown, the
manager after the call, and the events of the call. -/
structure Outcome where
  result : Except Exn Unit
  manager : BookingManager
  events : List Event
  deriving DecidableEq, Repr

/-- The `try` block of `BookingManager::bookCourt`. -/
def BookingManager.bookCourtBody (mgr : BookingManager) (courtType : String)
    (rentalTypes : List String) (paymentMethod : String) (input : ConsoleInput) : Outcome :=
  let started := [Event.logInfo "Starting booking process."]
  match BookingValidator.validateCourtType courtType with
  | .error e => ⟨.error e, mgr, started⟩
  | .ok _ =>
  match BookingValidator.validatePaymentMethod paymentMethod with
  | .error e => ⟨.error e, mgr, started⟩
  | .ok _ =>
  let checked := started ++ [Event.checkAvailability courtType]
  match mgr.inventoryService.checkAvailability courtType with
  | .error e => ⟨.error e, mgr, checked⟩
  | .ok false => ⟨.error ⟨.runtime_error, "Selected court type is unavailable"⟩, mgr, checked⟩
  | .ok true =>
  let discountStrategy := DiscountStrategy.PercentageDiscount 10
  match BookingService.createBooking courtType rentalTypes with
  | .error e => ⟨.error e, mgr, checked⟩
  | .ok created =>
  let booking := created.applyDiscountStrategy discountStrategy
  let total := booking.calculateTotal
  let priced := checked ++ [Event.totalPrice total]
  let payment := PaymentService.processPayment paymentMethod total input
  match payment.1 with
  | .error e => ⟨.error e, mgr, priced ++ payment.2⟩
  | .ok _ =>
  let paid := priced ++ payment.2 ++ [Event.reserveCourt courtType]
  let reserved := mgr.inventoryService.reserveCourt courtType
  match reserved.1 with
  | .error e => ⟨.error e, ⟨reserved.2⟩, paid⟩
  | .ok _ => ⟨.ok (), ⟨reserved.2⟩, paid ++ [Event.logInfo "Booking completed successfully."]⟩

/-- Source function `BookingManager::bookCourt`: the `try` block, and the handler that logs the
message of a caught exception and rethrows it. -/
def BookingManager.bookCourt (mgr : BookingManager) (courtType : String)
    (rentalTypes : List String) (paymentMethod : String) (input : ConsoleInput) : Outcome :=
  let attempt := mgr.bookCourtBody courtType rentalTypes paymentMethod input
  match attempt.result with
  | .ok _ => attempt
  | .error e => ⟨.error e, attempt.manager, attempt.events ++ [Event.logError e.what]⟩

/-- The amounts charged in a list of events, in order. -/
def chargedAmounts : List Event → List Int
  | [] => []
  | .processPayment _ amount :: rest => amount :: chargedAmounts rest
  | _ :: rest => chargedAmounts rest

/-! ## Sequences of inventory calls -/

/-- Consecutive calls of `CourtInventory::bookCourt` for one court type: the
result of each call, in order, and the inventory after the last one. -/
def CourtInventory.bookCourtTimes (inv : CourtInventory) (courtType : String) :
    Nat → List (Except Exn Unit) × CourtInventory
  | 0 => ([], inv)
  | n + 1 =>
      let first := inv.bookCourt courtType
      let others := CourtInventory.bookCourtTimes first.2 courtType n
      (first.1 :: others.1, others.2)

/-- The two operations a client of `CourtInventory` can call. -/
inductive InventoryCall
  | isAvailable (courtType : String)
  | bookCourt (courtType : String)
  deriving DecidableEq, Repr

/-- The inventory after one call. -/
def CourtInventory.call (inv : CourtInventory) : InventoryCall → CourtInventory
  | .isAvailable _ => inv
  | .bookCourt courtType => (inv.bookCourt courtType).2

/-- The inventory after a sequence of calls on a freshly constructed one. -/
def CourtInventory.afterCalls (calls : List InventoryCall) : CourtInventory :=
  calls.foldl CourtInventory.call CourtInventory.new

/-- What every reachable inventory satisfies: the keys are the three court
types and no count is negative. -/
def CourtInventory.WellFormed (inv : CourtInventory) : Prop :=
  inv.courtAvailability.keys = ["Grass", "Clay", "Hard"]
  ∧ ∀ (k : String) (v : Int), inv.courtAvailability.find k = some v → 0 ≤ v

/-! ## Sequences of bookings -/

/-- The arguments of one call of `BookingManager::bookCourt`, together with the
console input read during that call. -/
structure Request where
  courtType : String
  rentalTypes : List String
  paymentMethod : String
  input : ConsoleInput
  deriving DecidableEq, Repr

/-- Consecutive calls of `BookingManager::bookCourt` on one manager: the court
types of the calls that returned normally, in order, and the manager after the
last call. -/
def BookingManager.bookAll (mgr : BookingManager) : List Request → List String × BookingManager
  | [] => ([], mgr)
  | request :: rest =>
      let out := mgr.bookCourt request.courtType request.rentalTypes request.paymentMethod
        request.input
      let others := BookingManager.bookAll out.manager rest
      match out.result with
      | .ok _ => (request.courtType :: others.1, others.2)
      | .error _ => others

/-- The manager after a sequence of calls on a freshly constructed one. -/
def BookingManager.afterBookings (history : List Request) : BookingManager :=
  (BookingManager.new.bookAll history).2

/-! ## Machine integer lemmas -/

theorem wrap32_eq_self {z : Int} (lo : INT_MIN ≤ z) (hi : z ≤ INT_MAX) : wrap32 z = z := by
  unfold INT_MIN at lo
  unfold INT_MAX at hi
  unfold wrap32
  omega

theorem wrap32_add_left (a b : Int) : wrap32 (wrap32 a + b) = wrap32 (a + b) := by
  unfold wrap32
  omega

theorem court_price_bounds (court : Court) : 100 ≤ court.getPrice ∧ court.getPrice ≤ 300 := by
  cases court <;> simp [Court.getPrice]

theorem item_price_bounds (item : RentalItem) : 20 ≤ item.getPrice ∧ item.getPrice ≤ 40 := by
  cases item <;> simp [RentalItem.getPrice]

theorem sum_prices_nonneg (items : List RentalItem) :
    0 ≤ (items.map RentalItem.getPrice).sum := by
  induction items with
  | nil => simp
  | cons item rest ih =>
      have := item_price_bounds item
      simp only [List.map_cons, List.sum_cons]
      omega

theorem foldl_wrap32 (items : List RentalItem) (acc : Int) :
    items.foldl (fun total item => wrap32 (total + item.getPrice)) (wrap32 acc)
      = wrap32 (acc + (items.map RentalItem.getPrice).sum) := by
  induction items generalizing acc with
  | nil => simp
  | cons item rest ih =>
      simp only [List.foldl_cons, List.map_cons, List.sum_cons]
      rw [wrap32_add_left, ih, add_assoc]

/-- Whatever the list, `calculateTotal` is the 32-bit reduction of the exact sum. -/
theorem calculateTotal_eq_wrap32 (court : Court) (items : List RentalItem) :
    PricingStrategy.calculateTotal court items = wrap32 (exactTotal court items) := by
  have h : court.getPrice = wrap32 court.getPrice := by
    cases court <;> decide
  unfold PricingStrategy.calculateTotal exactTotal
  rw [h, foldl_wrap32, ← h]

theorem percentage_eq_of_fits {total p : Int} (h0 : 0 ≤ total) (hmax : total ≤ INT_MAX)
    (hp0 : 0 ≤ p) (hfit : total * p ≤ INT_MAX) :
    (DiscountStrategy.PercentageDiscount p).applyDiscount total = total - total * p / 100 := by
  have hx : 0 ≤ total * p := mul_nonneg h0 hp0
  show wrap32 (total - Int.tdiv (wrap32 (total * p)) 100) = total - total * p / 100
  generalize total * p = x at hx hfit
  rw [wrap32_eq_self (by unfold INT_MIN; omega) hfit, Int.tdiv_eq_ediv hx (by decide)]
  unfold INT_MAX at hmax hfit
  apply wrap32_eq_self
  · unfold INT_MIN; omega
  · unfold INT_MAX; omega

/-! ## Factories and validators on recognised names -/

theorem validateCourtType_name (court : Court) :
    BookingValidator.validateCourtType court.name = .ok () := by
  cases court <;> decide

theorem createCourt_name (court : Court) : CourtFactory.createCourt court.name = .ok court := by
  cases court <;> decide

theorem createRentalItem_name (item : RentalItem) :
    RentalItemFactory.createRentalItem item.name = .ok item := by
  cases item <;> decide

theorem validatePaymentMethod_known {method : String} (h : method = "Card" ∨ method = "UPI") :
    BookingValidator.validatePaymentMethod method = .ok () := by
  rcases h with h | h <;> subst h <;> decide

theorem addRentalItems_names (booking : Booking) (items : List RentalItem) :
    BookingService.addRentalItems booking (items.map RentalItem.name)
      = .ok ⟨booking.court, booking.rentalItems ++ items, booking.discountStrategy⟩ := by
  induction items generalizing booking with
  | nil => simp [BookingService.addRentalItems]
  | cons item rest ih =>
      simp [BookingService.addRentalItems, createRentalItem_name, ih, Booking.addRentalItem]

theorem createBooking_names (court : Court) (items : List RentalItem) :
    BookingService.createBooking court.name (items.map RentalItem.name)
      = .ok ⟨court, items, .NoDiscount⟩ := by
  simp [BookingService.createBooking, createCourt_name, addRentalItems_names, Booking.new]

/-! ## Events -/

theorem chargedAmounts_append (xs ys : List Event) :
    chargedAmounts (xs ++ ys) = chargedAmounts xs ++ chargedAmounts ys := by
  induction xs with
  | nil => rfl
  | cons x rest ih => cases x <;> simp [chargedAmounts, ih]

theorem chargedAmounts_processPayment {method : String} (h : method = "Card" ∨ method = "UPI")
    (amount : Int) (input : ConsoleInput) :
    chargedAmounts (PaymentService.processPayment method amount input).2 = [amount] := by
  rcases h with h | h <;> subst h
  · simp only [PaymentService.processPayment, PaymentProcessorFactory.createProcessor,
      PaymentProcessor.collectPaymentDetails, PaymentProcessor.processPayment, if_true]
    generalize substr input.cardNumber (sizeMinus4 input.cardNumber) = r
    cases r <;> simp [chargedAmounts]
  · simp [PaymentService.processPayment, PaymentProcessorFactory.createProcessor,
      PaymentProcessor.collectPaymentDetails, PaymentProcessor.processPayment, chargedAmounts]

/-! ## The pipeline once validation and the availability check have passed -/

theorem reserveCourt_available {svc : InventoryService} {courtType : String}
    (h : svc.checkAvailability courtType = .ok true) :
    svc.reserveCourt courtType
      = (.ok (), ⟨⟨svc.inventory.courtAvailability.modify courtType (fun v => v - 1)⟩⟩) := by
  unfold InventoryService.checkAvailability at h
  simp [InventoryService.reserveCourt, CourtInventory.bookCourt, h]

/-- The outcome of `bookCourt` for a recognised court, recognised items and a
recognised payment method when the court is available. -/
theorem bookCourt_available (mgr : BookingManager) (court : Court) (items : List RentalItem)
    {method : String} (input : ConsoleInput) (hm : method = "Card" ∨ method = "UPI")
    (hav : mgr.inventoryService.checkAvailability court.name = .ok true) :
    mgr.bookCourt court.name (items.map RentalItem.name) method input =
      match (PaymentService.processPayment method
          ((DiscountStrategy.PercentageDiscount 10).applyDiscount
            (PricingStrategy.calculateTotal court items)) input) with
      | (.error e, paymentEvents) =>
          ⟨.error e, mgr,
            [.logInfo "Starting booking process.", .checkAvailability court.name,
              .totalPrice ((DiscountStrategy.PercentageDiscount 10).applyDiscount
                (PricingStrategy.calculateTotal court items))]
              ++ paymentEvents ++ [.logError e.what]⟩
      | (.ok _, paymentEvents) =>
          ⟨.ok (),
            ⟨⟨⟨mgr.inventoryService.inventory.courtAvailability.modify court.name
              (fun v => v - 1)⟩⟩⟩,
            [.logInfo "Starting booking process.", .checkAvailability court.name,
              .totalPrice ((DiscountStrategy.PercentageDiscount 10).applyDiscount
                (PricingStrategy.calculateTotal court items))]
              ++ paymentEvents
              ++ [.reserveCourt court.name, .logInfo "Booking completed successfully."]⟩ := by
  unfold BookingManager.bookCourt BookingManager.bookCourtBody
  simp only [validateCourtType_name, validatePaymentMethod_known hm, hav, createBooking_names,
    reserveCourt_available hav, Booking.applyDiscountStrategy, Booking.calculateTotal]
  generalize PaymentService.processPayment method _ input = payment
  obtain ⟨r, ev⟩ := payment
  cases r <;> simp

/-! ## Pricing claims -/

theorem exactTotal_replicate (court : Court) (item : RentalItem) (n : Nat) :
    court.getPrice + ((List.replicate n item).map RentalItem.getPrice).sum
      = court.getPrice + n * item.getPrice := by
  induction n with
  | zero => simp
  | succ n ih =>
      simp only [List.replicate_succ, List.map_cons, List.sum_cons] at ih ⊢
      push_cast
      linarith

/-- C2 (as stated, refuted): for a Hard court with 53,687,084 Grips the exact sum
of catalog prices is 2,147,483,660, which exceeds the largest `int`, and
`PricingStrategy::calculateTotal` returns -2,147,483,636 instead, a value below
the court price. -/
theorem calculateTotal_overflow_counterexample :
    PricingStrategy.calculateTotal .HardCourt (List.replicate 53687084 .Grips) = -2147483636
    ∧ Court.getPrice .HardCourt
        + ((List.replicate 53687084 RentalItem.Grips).map RentalItem.getPrice).sum = 2147483660
    ∧ PricingStrategy.calculateTotal .HardCourt (List.replicate 53687084 .Grips)
        < Court.getPrice .HardCourt := by
  have hsum := exactTotal_replicate .HardCourt .Grips 53687084
  have hval : Court.getPrice .HardCourt + ((53687084 : Nat) : Int) * RentalItem.getPrice .Grips
      = 2147483660 := by decide
  rw [hval] at hsum
  have hcalc := calculateTotal_eq_wrap32 .HardCourt (List.replicate 53687084 .Grips)
  rw [exactTotal, hsum] at hcalc
  have hwrap : wrap32 2147483660 = -2147483636 := by decide
  rw [hwrap] at hcalc
  refine ⟨hcalc, hsum, ?_⟩
  rw [hcalc]
  decide

/-- C2 (amended): the catalog prices are Grass=100, Clay=200, Hard=300,
Ballpack=20, Racket=30, Grips=40, and for every court and every list of rental
items whose exact sum of catalog prices does not exceed the largest `int`,
`PricingStrategy::calculateTotal` returns exactly price(court) + the sum of
price(item) over the list; the result is then at least the court price and is
the same for every reordering of the items. -/
theorem calculateTotal_exact (court : Court) (items : List RentalItem)
    (hfit : court.getPrice + (items.map RentalItem.getPrice).sum ≤ INT_MAX) :
    (Court.getPrice .GrassCourt = 100 ∧ Court.getPrice .ClayCourt = 200
      ∧ Court.getPrice .HardCourt = 300 ∧ RentalItem.getPrice .Ballpack = 20
      ∧ RentalItem.getPrice .Racket = 30 ∧ RentalItem.getPrice .Grips = 40)
    ∧ PricingStrategy.calculateTotal court items
        = court.getPrice + (items.map RentalItem.getPrice).sum
    ∧ court.getPrice ≤ PricingStrategy.calculateTotal court items
    ∧ ∀ reordered : List RentalItem, reordered.Perm items →
        PricingStrategy.calculateTotal court reordered
          = PricingStrategy.calculateTotal court items := by
  have hnn := sum_prices_nonneg items
  have hc := court_price_bounds court
  have hexact : PricingStrategy.calculateTotal court items
      = court.getPrice + (items.map RentalItem.getPrice).sum := by
    rw [calculateTotal_eq_wrap32, exactTotal]
    exact wrap32_eq_self (by unfold INT_MIN; omega) hfit
  refine ⟨by decide, hexact, by omega, ?_⟩
  intro reordered hperm
  rw [calculateTotal_eq_wrap32, calculateTotal_eq_wrap32, exactTotal, exactTotal,
    (hperm.map RentalItem.getPrice).sum_eq]

/-- Witness of `calculateTotal_exact`: a Grass court with two rackets costs 160. -/
theorem calculateTotal_exact_witness :
    Court.getPrice .GrassCourt
        + (([RentalItem.Racket, RentalItem.Racket]).map RentalItem.getPrice).sum ≤ INT_MAX
    ∧ PricingStrategy.calculateTotal .GrassCourt [.Racket, .Racket] = 160 :=
  ⟨by decide, (calculateTotal_exact .GrassCourt [.Racket, .Racket] (by decide)).2.1⟩

/-- C3 (as stated, refuted): with total = 30,000,000 and p = 100 the product
`total * percentage` exceeds the largest `int`; `applyDiscount` returns
42,949,672 where the reference definition gives 0. -/
theorem applyDiscount_overflow_counterexample :
    (0 : Int) ≤ 30000000 ∧ (0 : Int) ≤ 100 ∧ (100 : Int) ≤ 100
    ∧ (DiscountStrategy.PercentageDiscount 100).applyDiscount 30000000 = 42949672
    ∧ (30000000 : Int) - 30000000 * 100 / 100 = 0 := by
  decide

/-- C3 (amended): `NoDiscount::applyDiscount(t) = t` for every `t`, and for every
`int` total >= 0 and every p in [0,100] whose product `total * p` does not exceed
the largest `int`, `PercentageDiscount(p)::applyDiscount(total)` equals
`total - floor(total * p / 100)`; `PercentageDiscount(10)` applied to 320 yields
288. -/
theorem applyDiscount_reference (t total p : Int) (h0 : 0 ≤ total) (hmax : total ≤ INT_MAX)
    (hp0 : 0 ≤ p) (_hp100 : p ≤ 100) (hfit : total * p ≤ INT_MAX) :
    DiscountStrategy.NoDiscount.applyDiscount t = t
    ∧ (DiscountStrategy.PercentageDiscount p).applyDiscount total = total - total * p / 100
    ∧ (DiscountStrategy.PercentageDiscount 10).applyDiscount 320 = 288 :=
  ⟨rfl, percentage_eq_of_fits h0 hmax hp0 hfit, by decide⟩

/-- Witness of `applyDiscount_reference`: 10% off 160 is 144. -/
theorem applyDiscount_reference_witness :
    (0 : Int) ≤ 160 ∧ (160 : Int) ≤ INT_MAX ∧ (0 : Int) ≤ 10 ∧ (10 : Int) ≤ 100
    ∧ (160 : Int) * 10 ≤ INT_MAX
    ∧ (DiscountStrategy.PercentageDiscount 10).applyDiscount 160 = 160 - 160 * 10 / 100 :=
  ⟨by decide, by decide, by decide, by decide, by decide,
    (applyDiscount_reference 0 160 10 (by decide) (by decide) (by decide) (by decide)
      (by decide)).2.1⟩

/-! ## The amount charged by a booking -/

theorem map_name_replicate (item : RentalItem) (n : Nat) :
    (List.replicate n item).map RentalItem.name = List.replicate n item.name := by
  induction n with
  | zero => rfl
  | succ n ih => simp only [List.replicate_succ, List.map_cons, ih]

/-- C1 (as stated, refuted): a fresh manager books a Grass court with 6,000,000
Grips, paid by UPI. The booking succeeds; the pre-discount total is 240,000,100,
which with 10% off is 216,000,090, but `total * 10` exceeds the largest `int` and
the amount charged is 258,949,762. -/
theorem bookCourt_charge_overflow_counterexample :
    (BookingManager.new.bookCourt "Grass" (List.replicate 6000000 "Grips") "UPI"
        ⟨"", "", "", "", "player@upi"⟩).result = .ok ()
    ∧ chargedAmounts (BookingManager.new.bookCourt "Grass" (List.replicate 6000000 "Grips") "UPI"
        ⟨"", "", "", "", "player@upi"⟩).events = [258949762]
    ∧ Court.getPrice .GrassCourt
        + ((List.replicate 6000000 RentalItem.Grips).map RentalItem.getPrice).sum = 240000100
    ∧ (240000100 : Int) - 240000100 * 10 / 100 = 216000090 := by
  have hsum := exactTotal_replicate .GrassCourt .Grips 6000000
  have hval : Court.getPrice .GrassCourt + ((6000000 : Nat) : Int) * RentalItem.getPrice .Grips
      = 240000100 := by decide
  rw [hval] at hsum
  have hcalc := calculateTotal_eq_wrap32 .GrassCourt (List.replicate 6000000 .Grips)
  rw [exactTotal, hsum] at hcalc
  have hcharge : (DiscountStrategy.PercentageDiscount 10).applyDiscount (wrap32 240000100)
      = 258949762 := by decide
  have hout := bookCourt_available BookingManager.new .GrassCourt
    (List.replicate 6000000 .Grips) ⟨"", "", "", "", "player@upi"⟩
    (Or.inr (rfl : "UPI" = "UPI")) (by decide)
  rw [map_name_replicate, hcalc, hcharge] at hout
  have hname : RentalItem.name .Grips = "Grips" := rfl
  have hcourt : Court.name .GrassCourt = "Grass" := rfl
  rw [hname, hcourt] at hout
  rw [hout]
  exact ⟨by decide, by decide, hsum, by decide⟩

/-- C1 (amended): for every court, every list of rental items and a payment
method Card or UPI, when the court is available, the payment of the discounted
amount succeeds, and ten times the pre-discount total (court price plus item
prices) does not exceed the largest `int`, `BookingManager::bookCourt` succeeds
and charges exactly once, the pre-discount total minus its tenth (rounded down).
A Grass court with two rackets has pre-discount total 160 and discounted total
144; a Clay court with a ballpack and grips has 260 and 234. -/
theorem bookCourt_charges_discounted_total (mgr : BookingManager) (court : Court)
    (items : List RentalItem) (method : String) (input : ConsoleInput)
    (hm : method = "Card" ∨ method = "UPI")
    (hav : mgr.inventoryService.checkAvailability court.name = .ok true)
    (hpay : (PaymentService.processPayment method
      (exactTotal court items - exactTotal court items * 10 / 100) input).1 = .ok ())
    (hfit : exactTotal court items * 10 ≤ INT_MAX) :
    (mgr.bookCourt court.name (items.map RentalItem.name) method input).result = .ok ()
    ∧ chargedAmounts (mgr.bookCourt court.name (items.map RentalItem.name) method input).events
        = [exactTotal court items - exactTotal court items * 10 / 100]
    ∧ Event.totalPrice (exactTotal court items - exactTotal court items * 10 / 100)
        ∈ (mgr.bookCourt court.name (items.map RentalItem.name) method input).events
    ∧ (exactTotal .GrassCourt [.Racket, .Racket] = 160 ∧ (160 : Int) - 160 * 10 / 100 = 144)
    ∧ (exactTotal .ClayCourt [.Ballpack, .Grips] = 260 ∧ (260 : Int) - 260 * 10 / 100 = 234) := by
  have hnn := sum_prices_nonneg items
  have hc := court_price_bounds court
  have h0 : 0 ≤ exactTotal court items := by unfold exactTotal; omega
  have hle : exactTotal court items ≤ INT_MAX := by
    unfold INT_MAX at hfit ⊢
    omega
  have hcalc : PricingStrategy.calculateTotal court items = exactTotal court items := by
    rw [calculateTotal_eq_wrap32]
    exact wrap32_eq_self (by unfold INT_MIN; omega) hle
  have hdisc := percentage_eq_of_fits h0 hle (by decide : (0 : Int) ≤ 10) hfit
  have hout := bookCourt_available mgr court items input hm hav
  rw [hcalc, hdisc] at hout
  have hev := chargedAmounts_processPayment hm
    (exactTotal court items - exactTotal court items * 10 / 100) input
  rw [hout]
  revert hpay hev
  generalize PaymentService.processPayment method _ input = payment
  obtain ⟨r, ev⟩ := payment
  intro hpay hev
  simp only at hpay hev
  subst hpay
  refine ⟨rfl, ?_, ?_, by decide, by decide⟩
  · simp [chargedAmounts_append, chargedAmounts, hev]
  · simp

/-- Witness of `bookCourt_charges_discounted_total`: the first booking of `main`,
a Grass court with two rackets paid by UPI on a fresh manager, charges 144. -/
theorem bookCourt_charges_discounted_total_witness :
    ("UPI" = "Card" ∨ "UPI" = "UPI")
    ∧ BookingManager.new.inventoryService.checkAvailability "Grass" = .ok true
    ∧ (PaymentService.processPayment "UPI" 144 ⟨"", "", "", "", "player@upi"⟩).1 = .ok ()
    ∧ exactTotal .GrassCourt [.Racket, .Racket] * 10 ≤ INT_MAX
    ∧ chargedAmounts (BookingManager.new.bookCourt "Grass" ["Racket", "Racket"] "UPI"
        ⟨"", "", "", "", "player@upi"⟩).events = [144] :=
  ⟨by decide, by decide, by decide, by decide,
    (bookCourt_charges_discounted_total BookingManager.new .GrassCourt [.Racket, .Racket] "UPI"
      ⟨"", "", "", "", "player@upi"⟩ (by decide) (by decide) (by decide) (by decide)).2.1⟩

/-! ## The availability map -/

theorem StdMap.find_modify_self (m : StdMap) (key : String) (f : Int → Int) {v : Int}
    (h : m.find key = some v) : (m.modify key f).find key = some (f v) := by
  induction m with
  | nil => simp [StdMap.find] at h
  | cons b rest ih =>
      obtain ⟨k, w⟩ := b
      by_cases hk : k = key
      · simp only [StdMap.find, hk, if_true] at h
        simp [StdMap.modify, StdMap.find, hk, Option.some.inj h]
      · simp only [StdMap.find, hk, if_false] at h
        simp [StdMap.modify, StdMap.find, hk, ih h]

theorem StdMap.find_modify_other (m : StdMap) (key : String) (f : Int → Int) {other : String}
    (h : other ≠ key) : (m.modify key f).find other = m.find other := by
  induction m with
  | nil => simp [StdMap.modify, StdMap.find, Ne.symm h]
  | cons b rest ih =>
      obtain ⟨k, w⟩ := b
      by_cases hk : k = key
      · have hko : k ≠ other := fun e => h (e.symm.trans hk)
        simp [StdMap.modify, StdMap.find, hk, hko, Ne.symm h]
      · by_cases ho : k = other
        · subst ho
          simp [StdMap.modify, StdMap.find, hk]
        · simp [StdMap.modify, StdMap.find, hk, ho, ih]

theorem StdMap.keys_modify (m : StdMap) (key : String) (f : Int → Int) {v : Int}
    (h : m.find key = some v) : (m.modify key f).keys = m.keys := by
  induction m with
  | nil => simp [StdMap.find] at h
  | cons b rest ih =>
      obtain ⟨k, w⟩ := b
      by_cases hk : k = key
      · simp [StdMap.modify, StdMap.keys, hk]
      · simp only [StdMap.find, hk, if_false] at h
        have := ih h
        simp only [StdMap.keys] at this
        simp [StdMap.modify, StdMap.keys, hk, this]

/-! ## `CourtInventory` -/

theorem isAvailable_of_find {inv : CourtInventory} {courtType : String} {v : Int}
    (h : inv.courtAvailability.find courtType = some v) :
    inv.isAvailable courtType = .ok (decide (v > 0)) := by
  simp [CourtInventory.isAvailable, StdMap.at, h]

theorem isAvailable_of_find_none {inv : CourtInventory} {courtType : String}
    (h : inv.courtAvailability.find courtType = none) :
    inv.isAvailable courtType = .error ⟨.out_of_range, "map::at"⟩ := by
  simp [CourtInventory.isAvailable, StdMap.at, h]

theorem bookCourt_of_pos {inv : CourtInventory} {courtType : String} {v : Int}
    (h : inv.courtAvailability.find courtType = some v) (hv : 0 < v) :
    inv.bookCourt courtType
      = (.ok (), ⟨inv.courtAvailability.modify courtType (fun v => v - 1)⟩) := by
  simp [CourtInventory.bookCourt, isAvailable_of_find h, hv]

theorem bookCourt_of_nonpos {inv : CourtInventory} {courtType : String} {v : Int}
    (h : inv.courtAvailability.find courtType = some v) (hv : v ≤ 0) :
    inv.bookCourt courtType
      = (.error ⟨.runtime_error, "No courts available for type: " ++ courtType⟩, inv) := by
  simp [CourtInventory.bookCourt, isAvailable_of_find h, not_lt.mpr hv]

theorem bookCourt_of_find_none {inv : CourtInventory} {courtType : String}
    (h : inv.courtAvailability.find courtType = none) :
    inv.bookCourt courtType = (.error ⟨.out_of_range, "map::at"⟩, inv) := by
  simp [CourtInventory.bookCourt, isAvailable_of_find_none h]

theorem bookCourtTimes_exhausted (inv : CourtInventory) (courtType : String) (extra : Nat)
    (h : inv.courtAvailability.find courtType = some 0) :
    inv.bookCourtTimes courtType extra
      = (List.replicate extra
          (.error ⟨.runtime_error, "No courts available for type: " ++ courtType⟩), inv) := by
  induction extra with
  | zero => rfl
  | succ extra ih =>
      simp [CourtInventory.bookCourtTimes, bookCourt_of_nonpos h (le_refl 0), ih,
        List.replicate_succ]

theorem bookCourtTimes_spec (n : Nat) (inv : CourtInventory) (courtType : String) (extra : Nat)
    (h : inv.courtAvailability.find courtType = some (n : Int)) :
    (inv.bookCourtTimes courtType (n + extra)).1
      = List.replicate n (.ok ()) ++ List.replicate extra
          (.error ⟨.runtime_error, "No courts available for type: " ++ courtType⟩)
    ∧ (inv.bookCourtTimes courtType (n + extra)).2.courtAvailability.find courtType = some 0 := by
  induction n generalizing inv with
  | zero =>
      simp only [Nat.zero_add, List.replicate_zero, List.nil_append]
      rw [bookCourtTimes_exhausted inv courtType extra (by simpa using h)]
      exact ⟨rfl, by simpa using h⟩
  | succ n ih =>
      have hpos : (0 : Int) < ((n + 1 : Nat) : Int) := by push_cast; omega
      have hstep := bookCourt_of_pos h hpos
      have hnext : (inv.bookCourt courtType).2.courtAvailability.find courtType
          = some (n : Int) := by
        rw [hstep]
        simp only
        rw [StdMap.find_modify_self _ _ _ h]
        push_cast
        simp
      have := ih (inv.bookCourt courtType).2 hnext
      rw [Nat.add_right_comm]
      simp only [CourtInventory.bookCourtTimes, this, List.replicate_succ, List.cons_append]
      simp [hstep]

/-! ## Inventory claims -/

/-- C4: from an inventory in which a court type has remaining count `n`, the
first `n` consecutive `CourtInventory::bookCourt` calls for that type succeed and
every later one (the `(n+1)`-th in particular) fails with the runtime error
"No courts available for type: ...", after which `isAvailable` is false. The
fresh inventory has Grass=10, Clay=5, Hard=8, and on it five bookings of Clay
succeed and the sixth fails. -/
theorem bookCourt_succeeds_exactly_count (inv : CourtInventory) (courtType : String)
    (n extra : Nat) (h : inv.courtAvailability.find courtType = some (n : Int)) :
    (inv.bookCourtTimes courtType (n + extra)).1
      = List.replicate n (.ok ()) ++ List.replicate extra
          (.error ⟨.runtime_error, "No courts available for type: " ++ courtType⟩)
    ∧ (inv.bookCourtTimes courtType (n + 1)).1
      = List.replicate n (.ok ())
          ++ [.error ⟨.runtime_error, "No courts available for type: " ++ courtType⟩]
    ∧ (inv.bookCourtTimes courtType (n + 1)).2.isAvailable courtType = .ok false
    ∧ CourtInventory.new.courtAvailability = [("Grass", 10), ("Clay", 5), ("Hard", 8)]
    ∧ (CourtInventory.new.bookCourtTimes "Clay" 6).1
      = [.ok (), .ok (), .ok (), .ok (), .ok (),
          .error ⟨.runtime_error, "No courts available for type: Clay"⟩]
    ∧ (CourtInventory.new.bookCourtTimes "Clay" 6).2.isAvailable "Clay" = .ok false := by
  have hgen := bookCourtTimes_spec n inv courtType extra h
  have hone := bookCourtTimes_spec n inv courtType 1 h
  refine ⟨hgen.1, ?_, ?_, by decide, by decide, by decide⟩
  · simpa using hone.1
  · rw [isAvailable_of_find hone.2]
    rfl

/-- Witness of `bookCourt_succeeds_exactly_count`: with one court remaining,
exactly the first of two attempts succeeds. -/
theorem bookCourt_succeeds_exactly_count_witness :
    (CourtInventory.mk [("Hard", 1)]).courtAvailability.find "Hard" = some ((1 : Nat) : Int)
    ∧ ((CourtInventory.mk [("Hard", 1)]).bookCourtTimes "Hard" (1 + 1)).1
      = List.replicate 1 (.ok ()) ++ List.replicate 1
          (.error ⟨.runtime_error, "No courts available for type: " ++ "Hard"⟩) :=
  ⟨by decide,
    (bookCourt_succeeds_exactly_count (CourtInventory.mk [("Hard", 1)]) "Hard" 1 1
      (by decide)).1⟩

/-- C5: the postcondition of `CourtInventory::bookCourt(k)` in every inventory
state and for every string `k`. If `k` is a key with a positive count, the call
succeeds, the count of `k` is decremented by exactly 1, the count of every other
key is unchanged, and so is the set of keys. If the count is not positive the call
throws the runtime error, and if `k` is not a key it throws `std::out_of_range`;
in both cases the inventory is left exactly as it was. -/
theorem bookCourt_postcondition (inv : CourtInventory) (k : String) :
    match inv.courtAvailability.find k with
    | some v =>
        if 0 < v then
          (inv.bookCourt k).1 = .ok ()
          ∧ (inv.bookCourt k).2.courtAvailability.find k = some (v - 1)
          ∧ (∀ other : String, other ≠ k →
              (inv.bookCourt k).2.courtAvailability.find other
                = inv.courtAvailability.find other)
          ∧ (inv.bookCourt k).2.courtAvailability.keys = inv.courtAvailability.keys
        else
          inv.bookCourt k
            = (.error ⟨.runtime_error, "No courts available for type: " ++ k⟩, inv)
    | none => inv.bookCourt k = (.error ⟨.out_of_range, "map::at"⟩, inv) := by
  cases hfind : inv.courtAvailability.find k with
  | none => exact bookCourt_of_find_none hfind
  | some v =>
      simp only
      split
      · rename_i hv
        rw [bookCourt_of_pos hfind hv]
        exact ⟨rfl, StdMap.find_modify_self _ _ _ hfind,
          fun other ho => StdMap.find_modify_other _ _ _ ho,
          StdMap.keys_modify _ _ _ hfind⟩
      · rename_i hv
        exact bookCourt_of_nonpos hfind (not_lt.mp hv)

/-! ## Reachable inventories -/

theorem wellFormed_new : CourtInventory.new.WellFormed := by
  refine ⟨by decide, ?_⟩
  intro k v h
  have hmap : CourtInventory.new.courtAvailability = [("Grass", 10), ("Clay", 5), ("Hard", 8)] := by
    decide
  rw [hmap] at h
  simp only [StdMap.find] at h
  split at h
  · cases h; decide
  · split at h
    · cases h; decide
    · split at h
      · cases h; decide
      · cases h

theorem wellFormed_bookCourt {inv : CourtInventory} (hwf : inv.WellFormed) (k : String) :
    (inv.bookCourt k).2.WellFormed := by
  cases hfind : inv.courtAvailability.find k with
  | none =>
      rw [bookCourt_of_find_none hfind]
      exact hwf
  | some v =>
      by_cases hv : 0 < v
      · rw [bookCourt_of_pos hfind hv]
        refine ⟨(StdMap.keys_modify _ _ _ hfind).trans hwf.1, ?_⟩
        intro k' v' h'
        by_cases hk : k' = k
        · subst hk
          have hself := StdMap.find_modify_self inv.courtAvailability k' (fun v => v - 1) hfind
          simp only at h'
          rw [hself] at h'
          cases h'
          show 0 ≤ v - 1
          omega
        · simp only at h'
          rw [StdMap.find_modify_other _ _ _ hk] at h'
          exact hwf.2 k' v' h'
      · rw [bookCourt_of_nonpos hfind (not_lt.mp hv)]
        exact hwf

theorem wellFormed_foldl (calls : List InventoryCall) {inv : CourtInventory}
    (hwf : inv.WellFormed) : (calls.foldl CourtInventory.call inv).WellFormed := by
  induction calls generalizing inv with
  | nil => exact hwf
  | cons c rest ih =>
      apply ih
      cases c with
      | isAvailable k => exact hwf
      | bookCourt k => exact wellFormed_bookCourt hwf k

theorem wellFormed_afterCalls (calls : List InventoryCall) :
    (CourtInventory.afterCalls calls).WellFormed :=
  wellFormed_foldl calls wellFormed_new

theorem find_isSome_iff_of_keys (m : StdMap) (k : String) :
    (m.find k).isSome ↔ k ∈ m.keys := by
  induction m with
  | nil => simp [StdMap.find, StdMap.keys]
  | cons b rest ih =>
      obtain ⟨k', w⟩ := b
      by_cases hk : k' = k
      · simp [StdMap.find, StdMap.keys, hk]
      · simp only [StdMap.keys] at ih
        simp [StdMap.find, StdMap.keys, hk, ih, Ne.symm hk]

/-- C6: in every inventory reachable from the initial one (Grass=10, Clay=5,
Hard=8) by any sequence of `isAvailable` and `bookCourt` calls with arbitrary
string arguments, every remaining count is >= 0, the keys are still the three
court types, and a `bookCourt` call for a type whose count is 0 does not succeed:
it throws the runtime error and leaves the inventory as it was. -/
theorem inventory_invariant (calls : List InventoryCall) :
    (∀ (k : String) (v : Int),
        (CourtInventory.afterCalls calls).courtAvailability.find k = some v → 0 ≤ v)
    ∧ (CourtInventory.afterCalls calls).courtAvailability.keys = ["Grass", "Clay", "Hard"]
    ∧ (∀ k : String, (CourtInventory.afterCalls calls).courtAvailability.find k = some 0 →
        (CourtInventory.afterCalls calls).bookCourt k
          = (.error ⟨.runtime_error, "No courts available for type: " ++ k⟩,
              CourtInventory.afterCalls calls))
    ∧ CourtInventory.afterCalls [] = ⟨[("Grass", 10), ("Clay", 5), ("Hard", 8)]⟩ := by
  have hwf := wellFormed_afterCalls calls
  exact ⟨hwf.2, hwf.1, fun k hk => bookCourt_of_nonpos hk (le_refl 0), by decide⟩

/-- C7: in every reachable inventory, `CourtInventory::isAvailable(k)` for a court
type `k` among Grass, Clay, Hard returns whether the remaining count of `k` is
> 0, and for every other string `k` it throws (`std::out_of_range`, from
`std::map::at`) instead of returning a boolean. The method is `const`: it yields
a result only and the inventory is the same after the call. -/
theorem isAvailable_spec (calls : List InventoryCall) (k : String) :
    (k = "Grass" ∨ k = "Clay" ∨ k = "Hard" →
      ∃ v : Int, (CourtInventory.afterCalls calls).courtAvailability.find k = some v
        ∧ (CourtInventory.afterCalls calls).isAvailable k = .ok (decide (v > 0))
        ∧ ((CourtInventory.afterCalls calls).isAvailable k = .ok true ↔ v > 0))
    ∧ (¬ (k = "Grass" ∨ k = "Clay" ∨ k = "Hard") →
      (CourtInventory.afterCalls calls).isAvailable k = .error ⟨.out_of_range, "map::at"⟩)
    ∧ CourtInventory.afterCalls (calls ++ [.isAvailable k]) = CourtInventory.afterCalls calls := by
  have hwf := wellFormed_afterCalls calls
  have hmem := find_isSome_iff_of_keys (CourtInventory.afterCalls calls).courtAvailability k
  rw [hwf.1] at hmem
  simp only [List.mem_cons, List.mem_singleton, List.mem_nil_iff, or_false] at hmem
  refine ⟨?_, ?_, ?_⟩
  · intro hk
    obtain ⟨v, hv⟩ := Option.isSome_iff_exists.mp (hmem.mpr hk)
    refine ⟨v, hv, isAvailable_of_find hv, ?_⟩
    rw [isAvailable_of_find hv]
    simp
  · intro hk
    have hnone : (CourtInventory.afterCalls calls).courtAvailability.find k = none := by
      cases hf : (CourtInventory.afterCalls calls).courtAvailability.find k with
      | none => rfl
      | some v => exact absurd (hmem.mp (by simp [hf])) hk
    exact isAvailable_of_find_none hnone
  · simp [CourtInventory.afterCalls, List.foldl_append, CourtInventory.call]

/-! ## Validation claims -/

theorem validateCourtType_eq (s : String) :
    BookingValidator.validateCourtType s
      = if s = "Grass" ∨ s = "Clay" ∨ s = "Hard" then .ok ()
        else .error ⟨.invalid_argument, "Invalid court type"⟩ := by
  unfold BookingValidator.validateCourtType
  by_cases h : s = "Grass" ∨ s = "Clay" ∨ s = "Hard"
  · rw [if_pos h, if_neg (by tauto)]
  · rw [if_neg h, if_pos (by tauto)]

theorem validatePaymentMethod_eq (m : String) :
    BookingValidator.validatePaymentMethod m
      = if m = "Card" ∨ m = "UPI" then .ok ()
        else .error ⟨.invalid_argument, "Invalid payment method"⟩ := by
  unfold BookingValidator.validatePaymentMethod
  by_cases h : m = "Card" ∨ m = "UPI"
  · rw [if_pos h, if_neg (by tauto)]
  · rw [if_neg h, if_pos (by tauto)]

/-- C8: `BookingValidator::validateCourtType(s)` throws `std::invalid_argument`
exactly when `s` is none of "Grass", "Clay", "Hard" and returns normally
otherwise; `BookingValidator::validatePaymentMethod(m)` throws
`std::invalid_argument` exactly when `m` is neither "Card" nor "UPI" and returns
normally otherwise. Both are functions of their argument alone. -/
theorem validators_spec (s m : String) :
    (BookingValidator.validateCourtType s = .error ⟨.invalid_argument, "Invalid court type"⟩
      ↔ ¬ (s = "Grass" ∨ s = "Clay" ∨ s = "Hard"))
    ∧ (BookingValidator.validateCourtType s = .ok () ↔ (s = "Grass" ∨ s = "Clay" ∨ s = "Hard"))
    ∧ (BookingValidator.validatePaymentMethod m
        = .error ⟨.invalid_argument, "Invalid payment method"⟩
      ↔ ¬ (m = "Card" ∨ m = "UPI"))
    ∧ (BookingValidator.validatePaymentMethod m = .ok () ↔ (m = "Card" ∨ m = "UPI")) := by
  rw [validateCourtType_eq, validatePaymentMethod_eq]
  refine ⟨?_, ?_, ?_, ?_⟩
  · by_cases h : s = "Grass" ∨ s = "Clay" ∨ s = "Hard"
    · rw [if_pos h]
      exact ⟨fun h' => (by cases h'), fun h' => absurd h h'⟩
    · rw [if_neg h]
      exact ⟨fun _ => h, fun _ => rfl⟩
  · by_cases h : s = "Grass" ∨ s = "Clay" ∨ s = "Hard"
    · rw [if_pos h]
      exact ⟨fun _ => h, fun _ => rfl⟩
    · rw [if_neg h]
      exact ⟨fun h' => (by cases h'), fun h' => absurd h' h⟩
  · by_cases h : m = "Card" ∨ m = "UPI"
    · rw [if_pos h]
      exact ⟨fun h' => (by cases h'), fun h' => absurd h h'⟩
    · rw [if_neg h]
      exact ⟨fun _ => h, fun _ => rfl⟩
  · by_cases h : m = "Card" ∨ m = "UPI"
    · rw [if_pos h]
      exact ⟨fun _ => h, fun _ => rfl⟩
    · rw [if_neg h]
      exact ⟨fun h' => (by cases h'), fun h' => absurd h' h⟩

/-! ## Rejected bookings -/

/-- C9: when the court type is none of Grass, Clay, Hard, or the payment method
is neither Card nor UPI, `BookingManager::bookCourt` throws the validator's
`std::invalid_argument` ("Invalid court type" if the court type is bad, otherwise
"Invalid payment method"). The manager, and so the inventory, is unchanged, and
the only events are the start log line and the error log line: no availability
check, no reservation, no collection of payment details and no charge. -/
theorem bookCourt_rejects_invalid (mgr : BookingManager) (courtType : String)
    (rentalTypes : List String) (paymentMethod : String) (input : ConsoleInput)
    (h : ¬ (courtType = "Grass" ∨ courtType = "Clay" ∨ courtType = "Hard")
      ∨ ¬ (paymentMethod = "Card" ∨ paymentMethod = "UPI")) :
    mgr.bookCourt courtType rentalTypes paymentMethod input
      = (if courtType = "Grass" ∨ courtType = "Clay" ∨ courtType = "Hard" then
          ⟨.error ⟨.invalid_argument, "Invalid payment method"⟩, mgr,
            [.logInfo "Starting booking process.", .logError "Invalid payment method"]⟩
        else
          ⟨.error ⟨.invalid_argument, "Invalid court type"⟩, mgr,
            [.logInfo "Starting booking process.", .logError "Invalid court type"]⟩)
    ∧ (∃ message : String,
        (mgr.bookCourt courtType rentalTypes paymentMethod input).result
          = .error ⟨.invalid_argument, message⟩)
    ∧ (mgr.bookCourt courtType rentalTypes paymentMethod input).manager = mgr
    ∧ chargedAmounts (mgr.bookCourt courtType rentalTypes paymentMethod input).events = []
    ∧ Event.checkAvailability courtType
        ∉ (mgr.bookCourt courtType rentalTypes paymentMethod input).events
    ∧ Event.collectPaymentDetails paymentMethod
        ∉ (mgr.bookCourt courtType rentalTypes paymentMethod input).events := by
  by_cases hc : courtType = "Grass" ∨ courtType = "Clay" ∨ courtType = "Hard"
  · have hp : ¬ (paymentMethod = "Card" ∨ paymentMethod = "UPI") := by
      rcases h with h | h
      · exact absurd hc h
      · exact h
    have hout : mgr.bookCourt courtType rentalTypes paymentMethod input
        = ⟨.error ⟨.invalid_argument, "Invalid payment method"⟩, mgr,
            [.logInfo "Starting booking process.", .logError "Invalid payment method"]⟩ := by
      unfold BookingManager.bookCourt BookingManager.bookCourtBody
      simp [validateCourtType_eq, validatePaymentMethod_eq, hc, hp]
    rw [if_pos hc, hout]
    exact ⟨rfl, ⟨_, rfl⟩, rfl, rfl, by simp, by simp⟩
  · have hout : mgr.bookCourt courtType rentalTypes paymentMethod input
        = ⟨.error ⟨.invalid_argument, "Invalid court type"⟩, mgr,
            [.logInfo "Starting booking process.", .logError "Invalid court type"]⟩ := by
      unfold BookingManager.bookCourt BookingManager.bookCourtBody
      simp [validateCourtType_eq, hc]
    rw [if_neg hc, hout]
    exact ⟨rfl, ⟨_, rfl⟩, rfl, rfl, by simp, by simp⟩

/-- Witness of `bookCourt_rejects_invalid`: the court type "Sand" on a fresh
manager. -/
theorem bookCourt_rejects_invalid_witness :
    (¬ ("Sand" = "Grass" ∨ "Sand" = "Clay" ∨ "Sand" = "Hard") ∨ ¬ ("Card" = "Card" ∨ "Card" = "UPI"))
    ∧ BookingManager.new.bookCourt "Sand" ["Racket"] "Card" ⟨"4111111111111111", "", "", "", ""⟩
      = ⟨.error ⟨.invalid_argument, "Invalid court type"⟩, BookingManager.new,
          [.logInfo "Starting booking process.", .logError "Invalid court type"]⟩ :=
  ⟨by decide,
    (bookCourt_rejects_invalid BookingManager.new "Sand" ["Racket"] "Card"
      ⟨"4111111111111111", "", "", "", ""⟩ (by decide)).1⟩

/-- C10: for a court type among Grass, Clay, Hard whose remaining count is 0 and a
payment method Card or UPI, whatever the rental items, `BookingManager::bookCourt`
throws the runtime error "Selected court type is unavailable". The manager, and so
the inventory, is unchanged, and the only events are the start log line, the
availability check and the error log line: no total is printed, no payment
details are collected, nothing is charged and nothing is reserved. -/
theorem bookCourt_unavailable (mgr : BookingManager) (court : Court)
    (rentalTypes : List String) (paymentMethod : String) (input : ConsoleInput)
    (hm : paymentMethod = "Card" ∨ paymentMethod = "UPI")
    (hzero : mgr.count court.name = some 0) :
    mgr.bookCourt court.name rentalTypes paymentMethod input
      = ⟨.error ⟨.runtime_error, "Selected court type is unavailable"⟩, mgr,
          [.logInfo "Starting booking process.", .checkAvailability court.name,
            .logError "Selected court type is unavailable"]⟩
    ∧ chargedAmounts (mgr.bookCourt court.name rentalTypes paymentMethod input).events = [] := by
  have hcheck : mgr.inventoryService.checkAvailability court.name = .ok false := by
    unfold InventoryService.checkAvailability
    rw [isAvailable_of_find hzero]
    rfl
  have hout : mgr.bookCourt court.name rentalTypes paymentMethod input
      = ⟨.error ⟨.runtime_error, "Selected court type is unavailable"⟩, mgr,
          [.logInfo "Starting booking process.", .checkAvailability court.name,
            .logError "Selected court type is unavailable"]⟩ := by
    unfold BookingManager.bookCourt BookingManager.bookCourtBody
    simp [validateCourtType_name, validatePaymentMethod_known hm, hcheck]
  rw [hout]
  exact ⟨rfl, rfl⟩

/-- Witness of `bookCourt_unavailable`: a manager whose five Clay courts have all
been booked rejects one more Clay booking. -/
theorem bookCourt_unavailable_witness :
    ("Card" = "Card" ∨ "Card" = "UPI")
    ∧ (BookingManager.mk ⟨(CourtInventory.new.bookCourtTimes "Clay" 5).2⟩).count "Clay" = some 0
    ∧ ((BookingManager.mk ⟨(CourtInventory.new.bookCourtTimes "Clay" 5).2⟩).bookCourt "Clay"
        ["Ballpack", "Grips"] "Card" ⟨"4111111111111111", "12/30", "A Player", "123", ""⟩).result
      = .error ⟨.runtime_error, "Selected court type is unavailable"⟩ :=
  ⟨by decide, by decide,
    congrArg Outcome.result
      (bookCourt_unavailable (BookingManager.mk ⟨(CourtInventory.new.bookCourtTimes "Clay" 5).2⟩)
        .ClayCourt ["Ballpack", "Grips"] "Card"
        ⟨"4111111111111111", "12/30", "A Player", "123", ""⟩ (by decide) (by decide)).1⟩

/-! ## The payment step -/

theorem substr_sizeMinus4 (s : String) :
    substr s (sizeMinus4 s)
      = if s.length < 4 then .error ⟨.out_of_range, "basic_string::substr"⟩
        else .ok (String.mk (s.data.drop (s.length - 4))) := by
  unfold substr sizeMinus4 subSizeT
  by_cases h : s.length < 4
  · have h4 : ¬ 4 ≤ s.length := by omega
    rw [if_neg h4, if_pos h, if_pos (by omega)]
  · have h4 : 4 ≤ s.length := by omega
    rw [if_pos h4, if_neg h, if_neg (by omega)]

theorem processPayment_result_amount (p : PaymentProcessor) (amount other : Int) :
    (p.processPayment amount).1 = (p.processPayment other).1 := by
  cases p with
  | CardPayment cardNumber expiryDate cardHolderName cvv =>
      simp only [PaymentProcessor.processPayment]
      generalize substr cardNumber (sizeMinus4 cardNumber) = r
      cases r <;> rfl
  | UPIPayment upiId => rfl

theorem paymentService_result_amount (method : String) (amount other : Int)
    (input : ConsoleInput) :
    (PaymentService.processPayment method amount input).1
      = (PaymentService.processPayment method other input).1 := by
  unfold PaymentService.processPayment
  generalize PaymentProcessorFactory.createProcessor method = created
  cases created with
  | error e => rfl
  | ok p => exact processPayment_result_amount _ amount other

theorem reserveCourt_not_mem_payment (method : String) (amount : Int) (input : ConsoleInput)
    (k : String) : Event.reserveCourt k ∉ (PaymentService.processPayment method amount input).2 := by
  unfold PaymentService.processPayment PaymentProcessorFactory.createProcessor
  by_cases hc : method = "Card"
  · simp only [hc, if_true, PaymentProcessor.collectPaymentDetails,
      PaymentProcessor.processPayment]
    generalize substr input.cardNumber (sizeMinus4 input.cardNumber) = r
    cases r <;> simp
  · by_cases hu : method = "UPI"
    · subst hu
      simp [PaymentProcessor.collectPaymentDetails, PaymentProcessor.processPayment]
    · simp [hc, hu]

/-! ## The outcome of `bookCourt` for arbitrary arguments -/

theorem bookCourt_ok_iff (mgr : BookingManager) (courtType : String) (rentalTypes : List String)
    (paymentMethod : String) (input : ConsoleInput) :
    (mgr.bookCourt courtType rentalTypes paymentMethod input).result = .ok ()
      ↔ BookingValidator.validateCourtType courtType = .ok ()
        ∧ BookingValidator.validatePaymentMethod paymentMethod = .ok ()
        ∧ mgr.inventoryService.checkAvailability courtType = .ok true
        ∧ ∃ created : Booking,
            BookingService.createBooking courtType rentalTypes = .ok created
            ∧ (PaymentService.processPayment paymentMethod
                (created.applyDiscountStrategy (.PercentageDiscount 10)).calculateTotal
                input).1 = .ok () := by
  unfold BookingManager.bookCourt BookingManager.bookCourtBody
  cases h1 : BookingValidator.validateCourtType courtType with
  | error e => simp
  | ok u1 =>
  cases h2 : BookingValidator.validatePaymentMethod paymentMethod with
  | error e => simp
  | ok u2 =>
  cases h3 : mgr.inventoryService.checkAvailability courtType with
  | error e => simp
  | ok b =>
  cases b with
  | false => simp
  | true =>
  cases h4 : BookingService.createBooking courtType rentalTypes with
  | error e => simp
  | ok created =>
  simp only [reserveCourt_available h3]
  cases h5 : (PaymentService.processPayment paymentMethod
      (created.applyDiscountStrategy (.PercentageDiscount 10)).calculateTotal input).1 with
  | error e => simp [h5]
  | ok u5 => simp [h5]

theorem bookCourt_manager (mgr : BookingManager) (courtType : String) (rentalTypes : List String)
    (paymentMethod : String) (input : ConsoleInput) :
    (mgr.bookCourt courtType rentalTypes paymentMethod input).manager
      = match (mgr.bookCourt courtType rentalTypes paymentMethod input).result with
        | .ok _ => ⟨⟨(mgr.inventoryService.inventory.bookCourt courtType).2⟩⟩
        | .error _ => mgr := by
  unfold BookingManager.bookCourt BookingManager.bookCourtBody
  cases h1 : BookingValidator.validateCourtType courtType with
  | error e => simp
  | ok u1 =>
  cases h2 : BookingValidator.validatePaymentMethod paymentMethod with
  | error e => simp
  | ok u2 =>
  cases h3 : mgr.inventoryService.checkAvailability courtType with
  | error e => simp
  | ok b =>
  cases b with
  | false => simp
  | true =>
  cases h4 : BookingService.createBooking courtType rentalTypes with
  | error e => simp
  | ok created =>
  have hres := reserveCourt_available h3
  have hinv : mgr.inventoryService.inventory.bookCourt courtType
      = (.ok (), ⟨mgr.inventoryService.inventory.courtAvailability.modify courtType
          (fun v => v - 1)⟩) := by
    unfold InventoryService.checkAvailability at h3
    simp [CourtInventory.bookCourt, h3]
  cases h5 : (PaymentService.processPayment paymentMethod
      (created.applyDiscountStrategy (.PercentageDiscount 10)).calculateTotal input).1 with
  | error e => simp [h5]
  | ok u5 => simp [h5, hres, hinv]

/-! ## Failures inside the pipeline -/

/-- C11: the charge precedes the reservation. For every request that reaches the
payment step (both validations pass, the court is available, the booking is
built) and whose payment step, `collectPaymentDetails` followed by
`processPayment`, throws `e`, `BookingManager::bookCourt` throws `e`, the manager
and its inventory are exactly what they were before the call, and the events are
the start log line, the availability check, the printed total, the events of the
payment and the error log line: no reservation is attempted. -/
theorem bookCourt_payment_failure (mgr : BookingManager) (courtType : String)
    (rentalTypes : List String) (paymentMethod : String) (input : ConsoleInput)
    (created : Booking) (e : Exn)
    (hcourt : BookingValidator.validateCourtType courtType = .ok ())
    (hmethod : BookingValidator.validatePaymentMethod paymentMethod = .ok ())
    (hav : mgr.inventoryService.checkAvailability courtType = .ok true)
    (hcreated : BookingService.createBooking courtType rentalTypes = .ok created)
    (hpay : (PaymentService.processPayment paymentMethod
      (created.applyDiscountStrategy (.PercentageDiscount 10)).calculateTotal input).1
        = .error e) :
    (mgr.bookCourt courtType rentalTypes paymentMethod input).result = .error e
    ∧ (mgr.bookCourt courtType rentalTypes paymentMethod input).manager = mgr
    ∧ (mgr.bookCourt courtType rentalTypes paymentMethod input).events
      = [.logInfo "Starting booking process.", .checkAvailability courtType,
          .totalPrice (created.applyDiscountStrategy (.PercentageDiscount 10)).calculateTotal]
        ++ (PaymentService.processPayment paymentMethod
            (created.applyDiscountStrategy (.PercentageDiscount 10)).calculateTotal input).2
        ++ [.logError e.what]
    ∧ ∀ k : String,
        Event.reserveCourt k ∉ (mgr.bookCourt courtType rentalTypes paymentMethod input).events := by
  have hout : mgr.bookCourt courtType rentalTypes paymentMethod input
      = ⟨.error e, mgr,
          [.logInfo "Starting booking process.", .checkAvailability courtType,
            .totalPrice (created.applyDiscountStrategy (.PercentageDiscount 10)).calculateTotal]
          ++ (PaymentService.processPayment paymentMethod
              (created.applyDiscountStrategy (.PercentageDiscount 10)).calculateTotal input).2
          ++ [.logError e.what]⟩ := by
    unfold BookingManager.bookCourt BookingManager.bookCourtBody
    simp [hcourt, hmethod, hav, hcreated, hpay]
  rw [hout]
  refine ⟨rfl, rfl, rfl, ?_⟩
  intro k hk
  have hno := reserveCourt_not_mem_payment paymentMethod
    (created.applyDiscountStrategy (.PercentageDiscount 10)).calculateTotal input k
  simp at hk
  exact hno hk

/-- Witness of `bookCourt_payment_failure`: a Clay booking paid with a card whose
collected number is "123" fails in the payment step on a fresh manager, which
stays as it was. -/
theorem bookCourt_payment_failure_witness :
    BookingValidator.validateCourtType "Clay" = .ok ()
    ∧ BookingValidator.validatePaymentMethod "Card" = .ok ()
    ∧ BookingManager.new.inventoryService.checkAvailability "Clay" = .ok true
    ∧ BookingService.createBooking "Clay" ["Ballpack", "Grips"]
        = .ok ⟨.ClayCourt, [.Ballpack, .Grips], .NoDiscount⟩
    ∧ (PaymentService.processPayment "Card"
        ((Booking.mk .ClayCourt [.Ballpack, .Grips] .NoDiscount).applyDiscountStrategy
          (.PercentageDiscount 10)).calculateTotal ⟨"123", "12/30", "A Player", "999", ""⟩).1
        = .error ⟨.out_of_range, "basic_string::substr"⟩
    ∧ (BookingManager.new.bookCourt "Clay" ["Ballpack", "Grips"] "Card"
        ⟨"123", "12/30", "A Player", "999", ""⟩).manager = BookingManager.new :=
  ⟨by decide, by decide, by decide, by decide, by decide,
    (bookCourt_payment_failure BookingManager.new "Clay" ["Ballpack", "Grips"] "Card"
      ⟨"123", "12/30", "A Player", "999", ""⟩ ⟨.ClayCourt, [.Ballpack, .Grips], .NoDiscount⟩
      ⟨.out_of_range, "basic_string::substr"⟩ (by decide) (by decide) (by decide) (by decide)
      (by decide)).2.1⟩

/-- C12: `BookingManager::bookCourt` neither swallows nor changes an error. Whatever
exception `e` leaves the `try` block, the handler logs `e.what()` as the last
event and `bookCourt` throws the same `e`; if nothing is thrown the outcome is
that of the block. Inside the block the first step that throws decides the error:
court validation, then payment-method validation, then the availability check
(whose `false` answer is turned into the runtime error "Selected court type is
unavailable"), then booking construction, then payment, then reservation. And
`bookCourt` returns normally only if every step succeeded. -/
theorem bookCourt_propagates_errors (mgr : BookingManager) (courtType : String)
    (rentalTypes : List String) (paymentMethod : String) (input : ConsoleInput) (e : Exn) :
    ((mgr.bookCourtBody courtType rentalTypes paymentMethod input).result = .error e →
      mgr.bookCourt courtType rentalTypes paymentMethod input
        = ⟨.error e, (mgr.bookCourtBody courtType rentalTypes paymentMethod input).manager,
            (mgr.bookCourtBody courtType rentalTypes paymentMethod input).events
              ++ [.logError e.what]⟩)
    ∧ ((mgr.bookCourtBody courtType rentalTypes paymentMethod input).result = .ok () →
      mgr.bookCourt courtType rentalTypes paymentMethod input
        = mgr.bookCourtBody courtType rentalTypes paymentMethod input)
    ∧ (BookingValidator.validateCourtType courtType = .error e →
      (mgr.bookCourt courtType rentalTypes paymentMethod input).result = .error e)
    ∧ (BookingValidator.validateCourtType courtType = .ok () →
      BookingValidator.validatePaymentMethod paymentMethod = .error e →
      (mgr.bookCourt courtType rentalTypes paymentMethod input).result = .error e)
    ∧ (BookingValidator.validateCourtType courtType = .ok () →
      BookingValidator.validatePaymentMethod paymentMethod = .ok () →
      mgr.inventoryService.checkAvailability courtType = .error e →
      (mgr.bookCourt courtType rentalTypes paymentMethod input).result = .error e)
    ∧ (BookingValidator.validateCourtType courtType = .ok () →
      BookingValidator.validatePaymentMethod paymentMethod = .ok () →
      mgr.inventoryService.checkAvailability courtType = .ok false →
      (mgr.bookCourt courtType rentalTypes paymentMethod input).result
        = .error ⟨.runtime_error, "Selected court type is unavailable"⟩)
    ∧ (BookingValidator.validateCourtType courtType = .ok () →
      BookingValidator.validatePaymentMethod paymentMethod = .ok () →
      mgr.inventoryService.checkAvailability courtType = .ok true →
      BookingService.createBooking courtType rentalTypes = .error e →
      (mgr.bookCourt courtType rentalTypes paymentMethod input).result = .error e)
    ∧ (∀ created : Booking,
      BookingValidator.validateCourtType courtType = .ok () →
      BookingValidator.validatePaymentMethod paymentMethod = .ok () →
      mgr.inventoryService.checkAvailability courtType = .ok true →
      BookingService.createBooking courtType rentalTypes = .ok created →
      (PaymentService.processPayment paymentMethod
        (created.applyDiscountStrategy (.PercentageDiscount 10)).calculateTotal input).1
          = .error e →
      (mgr.bookCourt courtType rentalTypes paymentMethod input).result = .error e)
    ∧ (∀ created : Booking,
      BookingValidator.validateCourtType courtType = .ok () →
      BookingValidator.validatePaymentMethod paymentMethod = .ok () →
      mgr.inventoryService.checkAvailability courtType = .ok true →
      BookingService.createBooking courtType rentalTypes = .ok created →
      (PaymentService.processPayment paymentMethod
        (created.applyDiscountStrategy (.PercentageDiscount 10)).calculateTotal input).1
          = .ok () →
      (mgr.inventoryService.reserveCourt courtType).1 = .error e →
      (mgr.bookCourt courtType rentalTypes paymentMethod input).result = .error e)
    ∧ ((mgr.bookCourt courtType rentalTypes paymentMethod input).result = .ok () →
      BookingValidator.validateCourtType courtType = .ok ()
      ∧ BookingValidator.validatePaymentMethod paymentMethod = .ok ()
      ∧ mgr.inventoryService.checkAvailability courtType = .ok true
      ∧ (∃ created : Booking,
          BookingService.createBooking courtType rentalTypes = .ok created
          ∧ (PaymentService.processPayment paymentMethod
              (created.applyDiscountStrategy (.PercentageDiscount 10)).calculateTotal
              input).1 = .ok ())
      ∧ (mgr.inventoryService.reserveCourt courtType).1 = .ok ())
    ∧ ((mgr.bookCourt courtType rentalTypes paymentMethod input).result = .error e →
      (mgr.bookCourt courtType rentalTypes paymentMethod input).events.getLast?
        = some (.logError e.what)) := by
  refine ⟨?_, ?_, ?_, ?_, ?_, ?_, ?_, ?_, ?_, ?_, ?_⟩
  · intro h
    simp [BookingManager.bookCourt, h]
  · intro h
    unfold BookingManager.bookCourt
    simp only [h]
  · intro h1
    unfold BookingManager.bookCourt BookingManager.bookCourtBody
    simp [h1]
  · intro h1 h2
    unfold BookingManager.bookCourt BookingManager.bookCourtBody
    simp [h1, h2]
  · intro h1 h2 h3
    unfold BookingManager.bookCourt BookingManager.bookCourtBody
    simp [h1, h2, h3]
  · intro h1 h2 h3
    unfold BookingManager.bookCourt BookingManager.bookCourtBody
    simp [h1, h2, h3]
  · intro h1 h2 h3 h4
    unfold BookingManager.bookCourt BookingManager.bookCourtBody
    simp [h1, h2, h3, h4]
  · intro created h1 h2 h3 h4 h5
    unfold BookingManager.bookCourt BookingManager.bookCourtBody
    simp [h1, h2, h3, h4, h5]
  · intro created h1 h2 h3 h4 h5 h6
    unfold BookingManager.bookCourt BookingManager.bookCourtBody
    simp [h1, h2, h3, h4, h5, h6]
  · intro h
    obtain ⟨h1, h2, h3, h4⟩ := (bookCourt_ok_iff mgr courtType rentalTypes paymentMethod input).mp h
    refine ⟨h1, h2, h3, h4, ?_⟩
    rw [reserveCourt_available h3]
  · unfold BookingManager.bookCourt
    generalize mgr.bookCourtBody courtType rentalTypes paymentMethod input = body
    obtain ⟨r, m, ev⟩ := body
    cases r with
    | ok u => simp
    | error e' =>
        simp only
        intro h
        cases h
        simp
/-! ## Payment claims -/

/-- For a card number of at least four characters `CardPayment::processPayment`
returns normally and reports the last four characters. -/
theorem card_processPayment_of_four (cardNumber expiryDate cardHolderName cvv : String)
    (amount : Int) (h : 4 ≤ cardNumber.length) :
    (PaymentProcessor.CardPayment cardNumber expiryDate cardHolderName cvv).processPayment amount
      = (.ok (), [.processPayment "Card" amount, .paymentSuccessful "Card",
          .paymentReference (String.mk (cardNumber.data.drop (cardNumber.length - 4)))]) := by
  simp only [PaymentProcessor.processPayment, substr_sizeMinus4]
  rw [if_neg (by omega)]

/-- C13 (the code at the failing input): with the collected card number "123",
which is not empty, `CardPayment::processPayment(234)` writes the processing line
and the text "Payment successful for card ending with " and then throws
`std::out_of_range` from `substr`, because `cardNumber.size() - 4` wraps around to
18446744073709551615; the `size_t` subtraction and the thrown exception are
evaluated here. -/
theorem card_processPayment_short_number :
    "123".length ≠ 0
    ∧ sizeMinus4 "123" = 18446744073709551615
    ∧ (PaymentProcessor.CardPayment "123" "12/30" "A Player" "999").processPayment 234
      = (.error ⟨.out_of_range, "basic_string::substr"⟩,
          [.processPayment "Card" 234, .paymentSuccessful "Card"]) := by
  decide

/-- C17 (as stated, refuted): with the amount -5, `processPayment` of a UPI
payment and of a card payment both return normally and report the payment as
successful. -/
theorem processPayment_negative_counterexample :
    (-5 : Int) < 0
    ∧ (PaymentProcessor.UPIPayment "player@upi").processPayment (-5)
      = (.ok (), [.processPayment "UPI" (-5), .paymentSuccessful "UPI",
          .paymentReference "player@upi"])
    ∧ (PaymentProcessor.CardPayment "4111111111111111" "12/30" "A Player" "999").processPayment
        (-5)
      = (.ok (), [.processPayment "Card" (-5), .paymentSuccessful "Card",
          .paymentReference "1111"]) := by
  decide

/-- C17 (amended): `processPayment` never inspects the amount and there is no
`InvalidAmount` error. For every amount, negative ones included,
`UPIPayment::processPayment` returns normally and reports the amount as given;
`CardPayment::processPayment` with a card number of at least four characters
returns normally and reports the amount as given and the last four characters;
and the result of a payment is the same for every two amounts. -/
theorem processPayment_ignores_amount (p : PaymentProcessor) (amount other : Int)
    (upiId cardNumber expiryDate cardHolderName cvv : String)
    (hcard : 4 ≤ cardNumber.length) :
    (PaymentProcessor.UPIPayment upiId).processPayment amount
      = (.ok (), [.processPayment "UPI" amount, .paymentSuccessful "UPI",
          .paymentReference upiId])
    ∧ (PaymentProcessor.CardPayment cardNumber expiryDate cardHolderName cvv).processPayment
        amount
      = (.ok (), [.processPayment "Card" amount, .paymentSuccessful "Card",
          .paymentReference (String.mk (cardNumber.data.drop (cardNumber.length - 4)))])
    ∧ (p.processPayment amount).1 = (p.processPayment other).1 :=
  ⟨rfl, card_processPayment_of_four cardNumber expiryDate cardHolderName cvv amount hcard,
    processPayment_result_amount p amount other⟩

/-- Witness of `processPayment_ignores_amount`: the amount -7 charged to a
sixteen-character card number succeeds and reports the suffix "4242". -/
theorem processPayment_ignores_amount_witness :
    4 ≤ "4000123412344242".length
    ∧ (PaymentProcessor.CardPayment "4000123412344242" "01/29" "B Player" "321").processPayment
        (-7)
      = (.ok (), [.processPayment "Card" (-7), .paymentSuccessful "Card",
          .paymentReference "4242"]) :=
  ⟨by decide,
    (processPayment_ignores_amount (.UPIPayment "b@upi") (-7) 0 "b@upi" "4000123412344242"
      "01/29" "B Player" "321" (by decide)).2.1⟩

/-! ## Discount claims -/

theorem wrap32_zero : wrap32 0 = 0 := by decide

/-- C14 (as stated, refuted): with total = 2,147,483,647 and p = 100 the product
`total * percentage` and then the subtraction leave the range of `int`, and
`applyDiscount` returns -2,147,483,648, a negative value. -/
theorem applyDiscount_negative_counterexample :
    (0 : Int) ≤ 2147483647 ∧ (2147483647 : Int) ≤ INT_MAX ∧ (0 : Int) ≤ 100 ∧ (100 : Int) ≤ 100
    ∧ (DiscountStrategy.PercentageDiscount 100).applyDiscount 2147483647 = -2147483648
    ∧ (DiscountStrategy.PercentageDiscount 100).applyDiscount 2147483647 < 0 := by
  decide

/-- C14 (amended): for every `int` total >= 0 and every p in [0,100] whose product
`total * p` does not exceed the largest `int`,
`PercentageDiscount(p)::applyDiscount(total)` is >= 0 and <= total. -/
theorem applyDiscount_within_bounds (total p : Int) (h0 : 0 ≤ total) (hmax : total ≤ INT_MAX)
    (hp0 : 0 ≤ p) (hp100 : p ≤ 100) (hfit : total * p ≤ INT_MAX) :
    0 ≤ (DiscountStrategy.PercentageDiscount p).applyDiscount total
    ∧ (DiscountStrategy.PercentageDiscount p).applyDiscount total ≤ total := by
  rw [percentage_eq_of_fits h0 hmax hp0 hfit]
  have hx : 0 ≤ total * p := mul_nonneg h0 hp0
  have hle : total * p ≤ total * 100 := mul_le_mul_of_nonneg_left hp100 h0
  generalize total * p = x at hx hle
  constructor <;> omega

/-- Witness of `applyDiscount_within_bounds`: 10% off 320. -/
theorem applyDiscount_within_bounds_witness :
    (0 : Int) ≤ 320 ∧ (320 : Int) ≤ INT_MAX ∧ (0 : Int) ≤ 10 ∧ (10 : Int) ≤ 100
    ∧ (320 : Int) * 10 ≤ INT_MAX
    ∧ 0 ≤ (DiscountStrategy.PercentageDiscount 10).applyDiscount 320
    ∧ (DiscountStrategy.PercentageDiscount 10).applyDiscount 320 ≤ 320 :=
  ⟨by decide, by decide, by decide, by decide, by decide,
    applyDiscount_within_bounds 320 10 (by decide) (by decide) (by decide) (by decide)
      (by decide)⟩

/-- C15 (as stated, refuted): for total = 21,474,837 the product `total * 100`
exceeds the largest `int` and `PercentageDiscount(100)::applyDiscount` returns
42,949,672; for total = -21,474,837 it returns -42,949,672. -/
theorem applyDiscount_full_counterexample :
    (DiscountStrategy.PercentageDiscount 100).applyDiscount 21474837 = 42949672
    ∧ (DiscountStrategy.PercentageDiscount 100).applyDiscount (-21474837) = -42949672
    ∧ INT_MIN ≤ -21474837 ∧ (21474837 : Int) ≤ INT_MAX := by
  decide

/-- C15 (amended): for every total whose hundredfold is an `int`, that is for
-21,474,836 <= total <= 21,474,836, `PercentageDiscount(100)::applyDiscount(total)`
yields 0. -/
theorem applyDiscount_full (total : Int) (hlo : -21474836 ≤ total) (hhi : total ≤ 21474836) :
    (DiscountStrategy.PercentageDiscount 100).applyDiscount total = 0 := by
  show wrap32 (total - Int.tdiv (wrap32 (total * 100)) 100) = 0
  have hprod : wrap32 (total * 100) = total * 100 :=
    wrap32_eq_self (by unfold INT_MIN; omega) (by unfold INT_MAX; omega)
  rw [hprod, Int.mul_tdiv_cancel total (by decide), sub_self]
  exact wrap32_zero

/-- Witness of `applyDiscount_full`: a negative total, -260. -/
theorem applyDiscount_full_witness :
    (-21474836 : Int) ≤ -260 ∧ (-260 : Int) ≤ 21474836
    ∧ (DiscountStrategy.PercentageDiscount 100).applyDiscount (-260) = 0 :=
  ⟨by decide, by decide, applyDiscount_full (-260) (by decide) (by decide)⟩

/-- C16 (as stated, refuted): `PercentageDiscount(-1)` is constructed and applied
without any error: applied to 100 it returns 101; and `PercentageDiscount(101)`
applied to 100 returns -1. -/
theorem applyDiscount_out_of_range_counterexample :
    (-1 : Int) < 0
    ∧ (DiscountStrategy.PercentageDiscount (-1)).applyDiscount 100 = 101
    ∧ (101 : Int) > 100
    ∧ (DiscountStrategy.PercentageDiscount 101).applyDiscount 100 = -1 := by
  decide

/-- C16 (amended): `PercentageDiscount` stores any percentage unchecked and
`applyDiscount` performs no range check. For every p, inside [0,100] or not, and
every total such that `total * p` and the difference stay within `int`,
`PercentageDiscount(p)::applyDiscount(total)` returns
`total - (total * p / 100)` with truncating division. -/
theorem applyDiscount_any_percentage (total p : Int)
    (hlo : INT_MIN ≤ total * p) (hhi : total * p ≤ INT_MAX)
    (hdlo : INT_MIN ≤ total - Int.tdiv (total * p) 100)
    (hdhi : total - Int.tdiv (total * p) 100 ≤ INT_MAX) :
    (DiscountStrategy.PercentageDiscount p).applyDiscount total
      = total - Int.tdiv (total * p) 100 := by
  show wrap32 (total - Int.tdiv (wrap32 (total * p)) 100) = total - Int.tdiv (total * p) 100
  rw [wrap32_eq_self hlo hhi, wrap32_eq_self hdlo hdhi]

/-- Witness of `applyDiscount_any_percentage`: p = 150 applied to 200 gives
-100. -/
theorem applyDiscount_any_percentage_witness :
    INT_MIN ≤ (200 : Int) * 150 ∧ (200 : Int) * 150 ≤ INT_MAX
    ∧ INT_MIN ≤ (200 : Int) - Int.tdiv (200 * 150) 100
    ∧ (200 : Int) - Int.tdiv (200 * 150) 100 ≤ INT_MAX
    ∧ (DiscountStrategy.PercentageDiscount 150).applyDiscount 200
      = 200 - Int.tdiv (200 * 150) 100 :=
  ⟨by decide, by decide, by decide, by decide,
    applyDiscount_any_percentage 200 150 (by decide) (by decide) (by decide) (by decide)⟩

/-! ## Rental item names -/

theorem createRentalItem_unknown {s : String}
    (h : ¬ (s = "Ballpack" ∨ s = "Racket" ∨ s = "Grips")) :
    RentalItemFactory.createRentalItem s
      = .error ⟨.invalid_argument, "Invalid rental item type"⟩ := by
  unfold RentalItemFactory.createRentalItem
  rw [if_neg (by tauto), if_neg (by tauto), if_neg (by tauto)]

theorem createRentalItem_known {s : String}
    (h : s = "Ballpack" ∨ s = "Racket" ∨ s = "Grips") :
    ∃ item : RentalItem, s = item.name := by
  rcases h with h | h | h
  · exact ⟨.Ballpack, h⟩
  · exact ⟨.Racket, h⟩
  · exact ⟨.Grips, h⟩

theorem createCourt_known {s : String} (h : s = "Grass" ∨ s = "Clay" ∨ s = "Hard") :
    ∃ court : Court, s = court.name := by
  rcases h with h | h | h
  · exact ⟨.GrassCourt, h⟩
  · exact ⟨.ClayCourt, h⟩
  · exact ⟨.HardCourt, h⟩

theorem court_name_known (court : Court) :
    court.name = "Grass" ∨ court.name = "Clay" ∨ court.name = "Hard" := by
  cases court <;> simp [Court.name]

theorem names_of_known (rentalTypes : List String)
    (h : ∀ s ∈ rentalTypes, s = "Ballpack" ∨ s = "Racket" ∨ s = "Grips") :
    ∃ items : List RentalItem, rentalTypes = items.map RentalItem.name := by
  induction rentalTypes with
  | nil => exact ⟨[], rfl⟩
  | cons s rest ih =>
      obtain ⟨item, hitem⟩ := createRentalItem_known (h s (List.mem_cons_self s rest))
      obtain ⟨items, hitems⟩ := ih (fun t ht => h t (List.mem_cons_of_mem s ht))
      exact ⟨item :: items, by rw [hitem, hitems, List.map_cons]⟩

theorem addRentalItems_unknown (booking : Booking) (rentalTypes : List String)
    (h : ∃ s ∈ rentalTypes, ¬ (s = "Ballpack" ∨ s = "Racket" ∨ s = "Grips")) :
    BookingService.addRentalItems booking rentalTypes
      = .error ⟨.invalid_argument, "Invalid rental item type"⟩ := by
  induction rentalTypes generalizing booking with
  | nil =>
      obtain ⟨s, hs, _⟩ := h
      cases hs
  | cons t rest ih =>
      by_cases ht : t = "Ballpack" ∨ t = "Racket" ∨ t = "Grips"
      · obtain ⟨item, hitem⟩ := createRentalItem_known ht
        have hrest : ∃ s ∈ rest, ¬ (s = "Ballpack" ∨ s = "Racket" ∨ s = "Grips") := by
          obtain ⟨s, hs, hbad⟩ := h
          rcases List.mem_cons.mp hs with hst | hsr
          · exact absurd (hst ▸ ht) hbad
          · exact ⟨s, hsr, hbad⟩
        simp only [BookingService.addRentalItems, hitem, createRentalItem_name]
        exact ih _ hrest
      · simp only [BookingService.addRentalItems, createRentalItem_unknown ht]

/-- C18: for a court type among Grass, Clay, Hard that is available, a payment
method Card or UPI, and a list of rental items in which at least one string is
none of Ballpack, Racket, Grips, `BookingManager::bookCourt` throws the
`std::invalid_argument` "Invalid rental item type" of `RentalItemFactory`. The
manager, and so the inventory, is unchanged, and the only events are the start
log line, the availability check and the error log line: no total is printed, no
payment details are collected, nothing is charged and nothing is reserved. -/
theorem bookCourt_unknown_rental_item (mgr : BookingManager) (court : Court)
    (rentalTypes : List String) (paymentMethod : String) (input : ConsoleInput)
    (hm : paymentMethod = "Card" ∨ paymentMethod = "UPI")
    (hav : mgr.inventoryService.checkAvailability court.name = .ok true)
    (hbad : ∃ s ∈ rentalTypes, ¬ (s = "Ballpack" ∨ s = "Racket" ∨ s = "Grips")) :
    mgr.bookCourt court.name rentalTypes paymentMethod input
      = ⟨.error ⟨.invalid_argument, "Invalid rental item type"⟩, mgr,
          [.logInfo "Starting booking process.", .checkAvailability court.name,
            .logError "Invalid rental item type"]⟩
    ∧ chargedAmounts (mgr.bookCourt court.name rentalTypes paymentMethod input).events = []
    ∧ Event.collectPaymentDetails paymentMethod
        ∉ (mgr.bookCourt court.name rentalTypes paymentMethod input).events := by
  have hcreate : BookingService.createBooking court.name rentalTypes
      = .error ⟨.invalid_argument, "Invalid rental item type"⟩ := by
    simp only [BookingService.createBooking, createCourt_name]
    exact addRentalItems_unknown _ _ hbad
  have hout : mgr.bookCourt court.name rentalTypes paymentMethod input
      = ⟨.error ⟨.invalid_argument, "Invalid rental item type"⟩, mgr,
          [.logInfo "Starting booking process.", .checkAvailability court.name,
            .logError "Invalid rental item type"]⟩ := by
    unfold BookingManager.bookCourt BookingManager.bookCourtBody
    simp [validateCourtType_name, validatePaymentMethod_known hm, hav, hcreate]
  rw [hout]
  exact ⟨rfl, rfl, by simp⟩

/-- Witness of `bookCourt_unknown_rental_item`: a Clay booking with a ballpack
and the unknown item "Towel" on a fresh manager. -/
theorem bookCourt_unknown_rental_item_witness :
    ("Card" = "Card" ∨ "Card" = "UPI")
    ∧ BookingManager.new.inventoryService.checkAvailability "Clay" = .ok true
    ∧ (∃ s ∈ ["Ballpack", "Towel"], ¬ (s = "Ballpack" ∨ s = "Racket" ∨ s = "Grips"))
    ∧ BookingManager.new.bookCourt "Clay" ["Ballpack", "Towel"] "Card"
        ⟨"4111111111111111", "12/30", "A Player", "999", ""⟩
      = ⟨.error ⟨.invalid_argument, "Invalid rental item type"⟩, BookingManager.new,
          [.logInfo "Starting booking process.", .checkAvailability "Clay",
            .logError "Invalid rental item type"]⟩ :=
  ⟨by decide, by decide, ⟨"Towel", by decide, by decide⟩,
    (bookCourt_unknown_rental_item BookingManager.new .ClayCourt ["Ballpack", "Towel"] "Card"
      ⟨"4111111111111111", "12/30", "A Player", "999", ""⟩ (by decide) (by decide)
      ⟨"Towel", by decide, by decide⟩).1⟩

/-! ## Managers reached by sequences of bookings -/

theorem checkAvailability_true_iff (mgr : BookingManager) (courtType : String) :
    mgr.inventoryService.checkAvailability courtType = .ok true
      ↔ ∃ v : Int, mgr.count courtType = some v ∧ 0 < v := by
  unfold InventoryService.checkAvailability BookingManager.count
  cases hfind : mgr.inventoryService.inventory.courtAvailability.find courtType with
  | none => simp [isAvailable_of_find_none hfind]
  | some v => simp [isAvailable_of_find hfind]

theorem wellFormed_bookCourt_manager {mgr : BookingManager}
    (hwf : mgr.inventoryService.inventory.WellFormed) (courtType : String)
    (rentalTypes : List String) (paymentMethod : String) (input : ConsoleInput) :
    (mgr.bookCourt courtType rentalTypes paymentMethod
      input).manager.inventoryService.inventory.WellFormed := by
  rw [bookCourt_manager]
  cases (mgr.bookCourt courtType rentalTypes paymentMethod input).result with
  | ok u => exact wellFormed_bookCourt hwf courtType
  | error e => exact hwf

theorem wellFormed_bookAll (requests : List Request) {mgr : BookingManager}
    (hwf : mgr.inventoryService.inventory.WellFormed) :
    (mgr.bookAll requests).2.inventoryService.inventory.WellFormed := by
  induction requests generalizing mgr with
  | nil => exact hwf
  | cons request rest ih =>
      have hnext := wellFormed_bookCourt_manager hwf request.courtType request.rentalTypes
        request.paymentMethod request.input
      simp only [BookingManager.bookAll]
      cases (mgr.bookCourt request.courtType request.rentalTypes request.paymentMethod
        request.input).result with
      | ok u => exact ih hnext
      | error e => exact ih hnext

theorem wellFormed_afterBookings (history : List Request) :
    (BookingManager.afterBookings history).inventoryService.inventory.WellFormed :=
  wellFormed_bookAll history wellFormed_new

theorem createBooking_ok_iff (courtType : String) (rentalTypes : List String) :
    (∃ created : Booking, BookingService.createBooking courtType rentalTypes = .ok created)
      ↔ (courtType = "Grass" ∨ courtType = "Clay" ∨ courtType = "Hard")
        ∧ ∀ s ∈ rentalTypes, s = "Ballpack" ∨ s = "Racket" ∨ s = "Grips" := by
  constructor
  · rintro ⟨created, hcreated⟩
    have hcourt : courtType = "Grass" ∨ courtType = "Clay" ∨ courtType = "Hard" := by
      by_contra hc
      unfold BookingService.createBooking CourtFactory.createCourt at hcreated
      rw [if_neg (by tauto), if_neg (by tauto), if_neg (by tauto)] at hcreated
      cases hcreated
    refine ⟨hcourt, ?_⟩
    by_contra hall
    push_neg at hall
    obtain ⟨s, hs, hbad⟩ := hall
    obtain ⟨court, hname⟩ := createCourt_known hcourt
    rw [hname] at hcreated
    simp only [BookingService.createBooking, createCourt_name] at hcreated
    rw [addRentalItems_unknown _ _ ⟨s, hs, by tauto⟩] at hcreated
    cases hcreated
  · rintro ⟨hcourt, hall⟩
    obtain ⟨court, hname⟩ := createCourt_known hcourt
    obtain ⟨items, hitems⟩ := names_of_known rentalTypes hall
    exact ⟨⟨court, items, .NoDiscount⟩, by rw [hname, hitems, createBooking_names]⟩

/-- C19: on a manager reached from a fresh one by any sequence of bookings,
`BookingManager::bookCourt` returns normally if and only if the court type is one
of Grass, Clay, Hard, the payment method is Card or UPI, the remaining count of
the court type is > 0, every rental item name is one of Ballpack, Racket, Grips,
and the payment step does not throw (which does not depend on the amount). The
validator, the court factory and the inventory map recognise exactly the same
three names, so that for a validated court type the availability check answers
with a boolean instead of throwing, and once it has answered `true` the
reservation after the payment returns normally. -/
theorem bookCourt_succeeds_iff (history : List Request) (courtType : String)
    (rentalTypes : List String) (paymentMethod : String) (input : ConsoleInput) (amount : Int) :
    (((BookingManager.afterBookings history).bookCourt courtType rentalTypes paymentMethod
        input).result = .ok ()
      ↔ (courtType = "Grass" ∨ courtType = "Clay" ∨ courtType = "Hard")
        ∧ (paymentMethod = "Card" ∨ paymentMethod = "UPI")
        ∧ (∃ v : Int, (BookingManager.afterBookings history).count courtType = some v ∧ 0 < v)
        ∧ (∀ s ∈ rentalTypes, s = "Ballpack" ∨ s = "Racket" ∨ s = "Grips")
        ∧ (PaymentService.processPayment paymentMethod amount input).1 = .ok ())
    ∧ (BookingValidator.validateCourtType courtType = .ok ()
        ↔ (courtType = "Grass" ∨ courtType = "Clay" ∨ courtType = "Hard"))
    ∧ ((∃ court : Court, CourtFactory.createCourt courtType = .ok court)
        ↔ (courtType = "Grass" ∨ courtType = "Clay" ∨ courtType = "Hard"))
    ∧ (((BookingManager.afterBookings history).count courtType).isSome
        ↔ (courtType = "Grass" ∨ courtType = "Clay" ∨ courtType = "Hard"))
    ∧ (BookingValidator.validateCourtType courtType = .ok () →
        ∃ v : Int, (BookingManager.afterBookings history).count courtType = some v
          ∧ (BookingManager.afterBookings history).inventoryService.checkAvailability courtType
            = .ok (decide (v > 0)))
    ∧ ((BookingManager.afterBookings history).inventoryService.checkAvailability courtType
        = .ok true →
      ((BookingManager.afterBookings history).inventoryService.reserveCourt courtType).1
        = .ok ()) := by
  have hwf := wellFormed_afterBookings history
  generalize BookingManager.afterBookings history = mgr at hwf ⊢
  have hkeys := find_isSome_iff_of_keys mgr.inventoryService.inventory.courtAvailability courtType
  rw [hwf.1] at hkeys
  simp only [List.mem_cons, List.mem_singleton, List.mem_nil_iff, or_false] at hkeys
  have hvalid : BookingValidator.validateCourtType courtType = .ok ()
      ↔ (courtType = "Grass" ∨ courtType = "Clay" ∨ courtType = "Hard") := by
    rw [validateCourtType_eq]
    by_cases h : courtType = "Grass" ∨ courtType = "Clay" ∨ courtType = "Hard"
    · rw [if_pos h]
      exact ⟨fun _ => h, fun _ => rfl⟩
    · rw [if_neg h]
      exact ⟨fun h' => (by cases h'), fun h' => absurd h' h⟩
  have hmethod : BookingValidator.validatePaymentMethod paymentMethod = .ok ()
      ↔ (paymentMethod = "Card" ∨ paymentMethod = "UPI") := by
    rw [validatePaymentMethod_eq]
    by_cases h : paymentMethod = "Card" ∨ paymentMethod = "UPI"
    · rw [if_pos h]
      exact ⟨fun _ => h, fun _ => rfl⟩
    · rw [if_neg h]
      exact ⟨fun h' => (by cases h'), fun h' => absurd h' h⟩
  refine ⟨?_, hvalid, ?_, hkeys, ?_, ?_⟩
  · rw [bookCourt_ok_iff, hvalid, hmethod, checkAvailability_true_iff]
    constructor
    · rintro ⟨hc, hm, hv, created, hcreated, hpay⟩
      refine ⟨hc, hm, hv, ((createBooking_ok_iff _ _).mp ⟨created, hcreated⟩).2, ?_⟩
      rw [paymentService_result_amount paymentMethod amount _ input]
      exact hpay
    · rintro ⟨hc, hm, hv, hall, hpay⟩
      obtain ⟨created, hcreated⟩ := (createBooking_ok_iff courtType rentalTypes).mpr ⟨hc, hall⟩
      refine ⟨hc, hm, hv, created, hcreated, ?_⟩
      rw [paymentService_result_amount paymentMethod _ amount input]
      exact hpay
  · constructor
    · rintro ⟨court, hcourt⟩
      by_contra hc
      unfold CourtFactory.createCourt at hcourt
      rw [if_neg (by tauto), if_neg (by tauto), if_neg (by tauto)] at hcourt
      cases hcourt
    · intro hc
      obtain ⟨court, hname⟩ := createCourt_known hc
      exact ⟨court, by rw [hname, createCourt_name]⟩
  · intro hv
    obtain ⟨v, hfind⟩ := Option.isSome_iff_exists.mp (hkeys.mpr (hvalid.mp hv))
    exact ⟨v, hfind, isAvailable_of_find hfind⟩
  · intro hav
    rw [reserveCourt_available hav]

/-! ## Counting successful bookings -/

theorem bookCourt_ok_counts (mgr : BookingManager) (courtType : String)
    (rentalTypes : List String) (paymentMethod : String) (input : ConsoleInput)
    (hok : (mgr.bookCourt courtType rentalTypes paymentMethod input).result = .ok ()) :
    ∃ v : Int, mgr.count courtType = some v ∧ 0 < v
      ∧ (mgr.bookCourt courtType rentalTypes paymentMethod input).manager.count courtType
        = some (v - 1)
      ∧ ∀ other : String, other ≠ courtType →
          (mgr.bookCourt courtType rentalTypes paymentMethod input).manager.count other
            = mgr.count other := by
  have hav := ((bookCourt_ok_iff mgr courtType rentalTypes paymentMethod input).mp hok).2.2.1
  obtain ⟨v, hfind, hv⟩ := (checkAvailability_true_iff mgr courtType).mp hav
  have hmgr := bookCourt_manager mgr courtType rentalTypes paymentMethod input
  rw [hok] at hmgr
  simp only at hmgr
  unfold BookingManager.count at hfind ⊢
  rw [hmgr, bookCourt_of_pos hfind hv]
  exact ⟨v, hfind, hv, StdMap.find_modify_self _ _ _ hfind,
    fun other ho => StdMap.find_modify_other _ _ _ ho⟩

theorem bookCourt_error_manager (mgr : BookingManager) (courtType : String)
    (rentalTypes : List String) (paymentMethod : String) (input : ConsoleInput) (e : Exn)
    (herr : (mgr.bookCourt courtType rentalTypes paymentMethod input).result = .error e) :
    (mgr.bookCourt courtType rentalTypes paymentMethod input).manager = mgr := by
  have hmgr := bookCourt_manager mgr courtType rentalTypes paymentMethod input
  rw [herr] at hmgr
  exact hmgr

/-- Along any sequence of bookings, the successful bookings of a court type and
its remaining count add up to the count it started with. -/
theorem bookAll_conserves (requests : List Request) (mgr : BookingManager) (k : String)
    (v : Int) (hwf : mgr.inventoryService.inventory.WellFormed) (hfind : mgr.count k = some v) :
    ∃ w : Int, (mgr.bookAll requests).2.count k = some w ∧ 0 ≤ w
      ∧ (((mgr.bookAll requests).1.count k : Nat) : Int) + w = v := by
  induction requests generalizing mgr v with
  | nil => exact ⟨v, hfind, hwf.2 k v hfind, by simp [BookingManager.bookAll]⟩
  | cons request rest ih =>
      obtain ⟨courtType, rentalTypes, paymentMethod, input⟩ := request
      have hnext := wellFormed_bookCourt_manager hwf courtType rentalTypes paymentMethod input
      simp only [BookingManager.bookAll]
      cases hres : (mgr.bookCourt courtType rentalTypes paymentMethod input).result with
      | error e =>
          simp only
          have hsame := bookCourt_error_manager mgr courtType rentalTypes paymentMethod input e
            hres
          rw [hsame]
          exact ih mgr v hwf hfind
      | ok u =>
          simp only
          obtain ⟨v0, hv0, hpos, hself, hother⟩ := bookCourt_ok_counts mgr courtType
            rentalTypes paymentMethod input hres
          by_cases hk : courtType = k
          · subst hk
            have hv : v0 = v := Option.some.inj (hv0.symm.trans hfind)
            subst hv
            obtain ⟨w, hw, hw0, hsum⟩ := ih _ (v0 - 1) hnext hself
            refine ⟨w, hw, hw0, ?_⟩
            rw [List.count_cons_self]
            push_cast
            omega
          · have hkeep := hother k (Ne.symm hk)
            obtain ⟨w, hw, hw0, hsum⟩ := ih _ v hnext (hkeep.trans hfind)
            refine ⟨w, hw, hw0, ?_⟩
            rw [List.count_cons_of_ne (Ne.symm hk)]
            exact hsum

/-- C20: every `BookingManager::bookCourt` call that returns normally decrements
the remaining count of the booked court type by exactly 1 and leaves the count of
every other court type unchanged, and a call that throws leaves all counts
unchanged. Consequently, over any sequence of `bookCourt` calls on one fresh
manager, the successful bookings of a court type and its remaining count always
add up to its initial count, and the number of successful bookings never exceeds
10 for Grass, 5 for Clay and 8 for Hard. -/
theorem bookings_bounded_by_inventory (mgr : BookingManager) (courtType : String)
    (rentalTypes : List String) (paymentMethod : String) (input : ConsoleInput)
    (requests : List Request) :
    ((mgr.bookCourt courtType rentalTypes paymentMethod input).result = .ok () →
      ∃ v : Int, mgr.count courtType = some v ∧ 0 < v
        ∧ (mgr.bookCourt courtType rentalTypes paymentMethod input).manager.count courtType
          = some (v - 1)
        ∧ ∀ other : String, other ≠ courtType →
            (mgr.bookCourt courtType rentalTypes paymentMethod input).manager.count other
              = mgr.count other)
    ∧ ((mgr.bookCourt courtType rentalTypes paymentMethod input).result ≠ .ok () →
      (mgr.bookCourt courtType rentalTypes paymentMethod input).manager = mgr)
    ∧ (∃ grass clay hard : Int,
        (BookingManager.new.bookAll requests).2.count "Grass" = some grass
        ∧ (BookingManager.new.bookAll requests).2.count "Clay" = some clay
        ∧ (BookingManager.new.bookAll requests).2.count "Hard" = some hard
        ∧ 0 ≤ grass ∧ 0 ≤ clay ∧ 0 ≤ hard
        ∧ (((BookingManager.new.bookAll requests).1.count "Grass" : Nat) : Int) + grass = 10
        ∧ (((BookingManager.new.bookAll requests).1.count "Clay" : Nat) : Int) + clay = 5
        ∧ (((BookingManager.new.bookAll requests).1.count "Hard" : Nat) : Int) + hard = 8)
    ∧ (BookingManager.new.bookAll requests).1.count "Grass" ≤ 10
    ∧ (BookingManager.new.bookAll requests).1.count "Clay" ≤ 5
    ∧ (BookingManager.new.bookAll requests).1.count "Hard" ≤ 8 := by
  obtain ⟨g, hg, hg0, hgs⟩ := bookAll_conserves requests BookingManager.new "Grass" 10
    wellFormed_new (by decide)
  obtain ⟨c, hc, hc0, hcs⟩ := bookAll_conserves requests BookingManager.new "Clay" 5
    wellFormed_new (by decide)
  obtain ⟨h, hh, hh0, hhs⟩ := bookAll_conserves requests BookingManager.new "Hard" 8
    wellFormed_new (by decide)
  refine ⟨bookCourt_ok_counts mgr courtType rentalTypes paymentMethod input, ?_,
    ⟨g, c, h, hg, hc, hh, hg0, hc0, hh0, hgs, hcs, hhs⟩, by omega, by omega, by omega⟩
  intro hne
  cases hres : (mgr.bookCourt courtType rentalTypes paymentMethod input).result with
  | ok u => exact absurd hres hne
  | error e => exact bookCourt_error_manager mgr courtType rentalTypes paymentMethod input e hres

end TennisBooking
